import Mathlib

/-!
Verification of the settings loader/merger of the `lp-addict/terminal` repository
(the Windows Terminal `TerminalSettingsModel` sources).

The development shallowly embeds the data model and the loader pipeline of
`CascadiaSettingsSerialization.cpp`, `CascadiaSettings.cpp` / `CascadiaSettings.h`
and `GlobalAppSettings.cpp`.  Profile records live in an arena (`Store`, a list of
`Profile` records addressed by their index), so that the multi-parent inheritance
graph with shared, non-owning parent references can be represented faithfully:
parent lists store arena indices, exactly as the spec's design notes suggest.

Recursion over the inheritance graph (field resolution, interned deep copy) is
written with an explicit `fuel` argument bounding the recursion depth; the C++
functions recurse without fuel, which is equivalent for any fuel at least the
height of the (acyclic) graph.
-/

namespace TerminalSettings

/-- Provenance tag on a profile; `OriginTag` of the C++ sources. -/
inductive OriginTag where
  | InBox
  | User
  | Fragment
  | ProfilesDefaults
  | Generated
  | TagNone
  deriving DecidableEq, Repr

/-- The non-fatal warnings enum, `Model::SettingsLoadWarnings`. -/
inductive SettingsLoadWarnings where
  | DuplicateProfile
  | UnknownColorScheme
  | InvalidBackgroundImage
  | InvalidIcon
  | MissingDefaultProfile
  | AtLeastOneKeybindingWarning
  | InvalidColorSchemeInCmd
  | FailedToWriteToSettings
  deriving DecidableEq, Repr

/-- The fatal load errors, `Model::SettingsLoadErrors`. -/
inductive SettingsLoadErrors where
  | NoProfiles
  | AllProfilesHidden
  deriving DecidableEq, Repr

/-- An appearance record (`AppearanceConfig`): the color-scheme name is the one
field the claims exercise; `none` models "unset / inherit". -/
structure AppearanceConfig where
  colorSchemeName : Option String := none
  deriving DecidableEq, Repr

/-- A profile record.  GUIDs are modelled as `Nat` (`0` models the all-zero
`winrt::guid` used as "no `updates` target").  `guidExplicit = none` models a
profile without an explicit `guid` (the getter `Guid()` then derives one from
the name, see `Profile.guid`).  `historySize` is the representative inheritable
scalar setting; `parents` is the ordered list of parent profiles (arena
indices). -/
structure Profile where
  name : String := ""
  guidExplicit : Option Nat := none
  hidden : Bool := false
  deleted : Bool := false
  origin : OriginTag := .TagNone
  source : Option String := none
  updates : Nat := 0
  connectionType : Option Nat := none
  historySize : Option Nat := none
  defaultAppearance : AppearanceConfig := {}
  unfocusedAppearance : Option AppearanceConfig := none
  parents : List Nat := []
  deriving DecidableEq, Repr

/-- Deterministic content hash of a string; used to model GUID values parsed
from JSON strings and the content-addressed GUID derived for nameless-GUID
profiles (`Utils::CreateV5Uuid` in the real sources; any deterministic injection
into `Nat` serves the claims). -/
def guidFromString (s : String) : Nat :=
  s.foldl (fun a c => a * 257 + c.toNat + 1) 1

/-- GUID derived deterministically from `(source, name)` for profiles without an
explicit GUID (content-addressed, so the same name always yields the same GUID
across runs). -/
def guidFromName (source : Option String) (name : String) : Nat :=
  guidFromString ((source.getD "") ++ "/" ++ name)

/-- The `Guid()` getter: the explicit GUID if present, else the one derived from
the profile's source and name. -/
def Profile.guid (p : Profile) : Nat :=
  p.guidExplicit.getD (guidFromName p.source p.name)

/-- The profile arena: records addressed by their index. -/
abbrev Store := List Profile

/-- Read a record from the arena (out-of-range reads yield the default record;
all pipeline accesses are in range). -/
def getP (s : Store) (i : Nat) : Profile := s.getD i {}

/-- Write a record into the arena. -/
def setP (s : Store) (i : Nat) (p : Profile) : Store := s.set i p

/-- `InsertParent(parent)`: append `parent` to the ordered parent list of
`child` (the inheritance-graph primitive). -/
def insertParent (s : Store) (child parent : Nat) : Store :=
  setP s child { getP s child with parents := (getP s child).parents ++ [parent] }

/-- `InsertParent(pos, parent)`: insert `parent` at the caller-specified
position of `child`'s parent list (the loader only uses position `0`). -/
def insertParentAt (s : Store) (pos : Nat) (child parent : Nat) : Store :=
  let ps := (getP s child).parents
  setP s child { getP s child with parents := ps.take pos ++ [parent] ++ ps.drop pos }

/-- Modelled from the spec: field resolution of the inheritance graph
(`IInheritable`, not among the analyzed sources).  `Resolved(field)` returns the
node's explicit value if present, else queries parents in list order, first hit
wins; `fuel` bounds the recursion depth. -/
def resolveHistorySize (s : Store) : Nat → Nat → Option Nat
  | 0, _ => none
  | fuel + 1, i =>
    match (getP s i).historySize with
    | some v => some v
    | none => (getP s i).parents.findSome? (resolveHistorySize s fuel)

/-- Modelled from the spec: `HistorySizeOverrideSource()` — the record in the
inheritance graph that provides the resolved value (the node itself when the
value is explicit, else the first parent subtree with a value). -/
def historySizeOverrideSource (s : Store) : Nat → Nat → Option Nat
  | 0, _ => none
  | fuel + 1, i =>
    if (getP s i).historySize.isSome then some i
    else (getP s i).parents.findSome? (historySizeOverrideSource s fuel)

/-- Modelled from the spec: resolution of the default appearance's color-scheme
name through the profile inheritance graph, with the builtin "Campbell" scheme
as the global default. -/
def resolveSchemeName (s : Store) : Nat → Nat → Option String
  | 0, _ => none
  | fuel + 1, i =>
    match (getP s i).defaultAppearance.colorSchemeName with
    | some v => some v
    | none => (getP s i).parents.findSome? (resolveSchemeName s fuel)

/-- The resolved color-scheme name of a profile's default appearance
(`profile.DefaultAppearance().ColorSchemeName()`). -/
def schemeNameOfDefault (s : Store) (fuel i : Nat) : String :=
  (resolveSchemeName s fuel i).getD "Campbell"

/-- Modelled from the spec: the unfocused appearance participates in
inheritance, parented to the profile's own default appearance — an unset
color-scheme name resolves through the default appearance. -/
def schemeNameOfUnfocused (s : Store) (fuel i : Nat) (ua : AppearanceConfig) : String :=
  ua.colorSchemeName.getD (schemeNameOfDefault s fuel i)

/-- A name-keyed color-scheme map (`IMap<hstring, ColorScheme>`), as an ordered
association list; scheme payloads are modelled as `Nat`.  `Insert` overwrites an
existing binding with the same name. -/
def schemesInsert (m : List (String × Nat)) (k : String) (v : Nat) : List (String × Nat) :=
  if (m.lookup k).isSome then m.map (fun kv => if kv.1 = k then (k, v) else kv)
  else m ++ [(k, v)]

/-- `HasKey` on the name-keyed color-scheme map. -/
def schemesHasKey (m : List (String × Nat)) (k : String) : Bool :=
  (m.lookup k).isSome

/-- App-wide settings (`GlobalAppSettings`).  Only the fields the loader
pipeline and the claims exercise are modelled (the remaining scalar launch/UI
keys of `GlobalAppSettings.cpp` take no part in any claim).  The action map is
modelled opaquely by the list of globals records whose action maps were attached
as its parents (`actionMapParents`, arena indices into the globals store);
`parents` is the ordered parent list of the globals record itself. -/
structure GlobalSettings where
  defaultProfile : Nat := 0
  unparsedDefaultProfile : String := ""
  disabledProfileSources : List String := []
  colorSchemes : List (String × Nat) := []
  keybindingsWarnings : List SettingsLoadWarnings := []
  actionMapParents : List Nat := []
  parents : List Nat := []
  deriving DecidableEq, Repr

/-- The globals arena. -/
abbrev GStore := List GlobalSettings

/-- Read a globals record from the arena. -/
def getG (gs : GStore) (i : Nat) : GlobalSettings := gs.getD i {}

/-- `InsertParent` on a globals record: append to its ordered parent list. -/
def gInsertParent (gs : GStore) (child parent : Nat) : GStore :=
  gs.set child { getG gs child with parents := (getG gs child).parents ++ [parent] }

/-- `GlobalAppSettings::_FinalizeInheritance`: for every parent (in order),
attach the parent's action map as a parent of the own action map, append the
parent's keybinding warnings, and `Insert` every color scheme of the parent into
the own scheme map (overwriting same-name entries). -/
def gFinalizeInheritance (gs : GStore) (i : Nat) : GStore :=
  let g := getG gs i
  let g' := g.parents.foldl
    (fun acc pid =>
      let pg := getG gs pid
      { acc with
        actionMapParents := acc.actionMapParents ++ [pid]
        keybindingsWarnings := acc.keybindingsWarnings ++ pg.keybindingsWarnings
        colorSchemes := pg.colorSchemes.foldl (fun m kv => schemesInsert m kv.1 kv.2) acc.colorSchemes })
    g
  gs.set i g'

/-- Modelled from the spec: `Profile::_FinalizeInheritance` is not among the
analyzed sources; the spec states that for profiles `FinalizeInheritance`
propagates "nothing extra", so it is the identity on the profile arena. -/
def profileFinalizeInheritance (s : Store) (_i : Nat) : Store := s

/-- One source's parse result (`ParsedSettings`): globals record, base-layer
profile, ordered profile list and the GUID index (an association list whose
`emplace` never overwrites, like `std::unordered_map::emplace`). -/
structure ParsedSettings where
  globals : Nat := 0
  baseLayerProfile : Nat := 0
  profiles : List Nat := []
  profilesByGuid : List (Nat × Nat) := []
  deriving DecidableEq, Repr

/-- The loader state (`SettingsLoader`): the two arenas, the inbox and user
`ParsedSettings`, the shared warning list, and the count of user-authored
profiles recorded right after parsing (see the member comment in
`CascadiaSettings.h`). -/
structure SettingsLoader where
  store : Store := []
  gstore : GStore := []
  inboxSettings : ParsedSettings := {}
  userSettings : ParsedSettings := {}
  warnings : List SettingsLoadWarnings := []
  userProfileCount : Nat := 0
  deriving DecidableEq, Repr

/-- `ReproduceProfile` (`CascadiaSettings.cpp`): synthesize a new user-origin
profile that copies the parent's name, GUID and hidden flag and has the parent
as its single parent; returns the new record's index and the grown arena. -/
def reproduceProfile (s : Store) (parentId : Nat) : Nat × Store :=
  let parent := getP s parentId
  let profile : Profile :=
    { origin := .User
      name := parent.name
      guidExplicit := some parent.guid
      hidden := parent.hidden
      parents := [parentId] }
  (s.length, s ++ [profile])

/-- `SettingsLoader::_appendProfile`: de-duplicates by GUID within one source —
if the GUID is new, the profile is registered in the GUID index and appended to
the profile list; otherwise it is dropped and a `DuplicateProfile` warning is
recorded. -/
def appendProfile (s : Store) (pid : Nat) (ps : ParsedSettings)
    (w : List SettingsLoadWarnings) : ParsedSettings × List SettingsLoadWarnings :=
  let guid := (getP s pid).guid
  if (ps.profilesByGuid.lookup guid).isSome then
    (ps, w ++ [.DuplicateProfile])
  else
    ({ ps with
        profilesByGuid := ps.profilesByGuid ++ [(guid, pid)]
        profiles := ps.profiles ++ [pid] }, w)

/-- One step of `SettingsLoader::MergeInboxIntoUserProfiles` for the
inbox/generated profile `g`: `emplace` its GUID into the user GUID index — on a
hit, insert `g` as an additional parent of the indexed profile; on a miss,
register `g` in the index and append `ReproduceProfile(g)` to the user profile
list. -/
def mergeInboxStep (st : SettingsLoader) (g : Nat) : SettingsLoader :=
  let guid := (getP st.store g).guid
  match st.userSettings.profilesByGuid.lookup guid with
  | some uid => { st with store := insertParent st.store uid g }
  | none =>
    let (nid, store') := reproduceProfile st.store g
    { st with
        store := store'
        userSettings :=
          { st.userSettings with
              profilesByGuid := st.userSettings.profilesByGuid ++ [(guid, g)]
              profiles := st.userSettings.profiles ++ [nid] } }

/-- `SettingsLoader::MergeInboxIntoUserProfiles`: process every inbox/generated
profile in order. -/
def mergeInboxIntoUserProfiles (st : SettingsLoader) : SettingsLoader :=
  st.inboxSettings.profiles.foldl mergeInboxStep st

/-- The per-fragment-profile body of `SettingsLoader::MergeFragmentsIntoUserProfiles`
(inside `parseAndLayerFragmentFiles`): a fragment profile with a non-empty
`updates` GUID that hits the user GUID index gets its `source` set and is
inserted as the indexed profile's parent at position 0; with a non-empty
`updates` GUID that misses, nothing happens; with an empty `updates` GUID, its
`source` is set and `ReproduceProfile` of it is appended via `_appendProfile`. -/
def layerFragmentProfile (source : String) (st : SettingsLoader) (fp : Nat) : SettingsLoader :=
  let p := getP st.store fp
  if p.updates ≠ 0 then
    match st.userSettings.profilesByGuid.lookup p.updates with
    | some uid =>
      let store1 := setP st.store fp { p with source := some source }
      { st with store := insertParentAt store1 0 uid fp }
    | none => st
  else
    let store1 := setP st.store fp { p with source := some source }
    let (nid, store2) := reproduceProfile store1 fp
    let (ps', w') := appendProfile store2 nid st.userSettings st.warnings
    { st with store := store2, userSettings := ps', warnings := w' }

/-- The per-document body of `SettingsLoader::MergeFragmentsIntoUserProfiles`
for one already-parsed fragment document: layer each fragment profile, then
merge the fragment's color schemes into the user globals by name.  The
filesystem and app-extension-catalog enumeration around it is external I/O and
is not part of the model. -/
def mergeFragmentDocument (source : String) (fragmentProfiles : List Nat)
    (fragmentSchemes : List (String × Nat)) (st : SettingsLoader) : SettingsLoader :=
  let st1 := fragmentProfiles.foldl (layerFragmentProfile source) st
  let ug := getG st1.gstore st1.userSettings.globals
  let ug' := { ug with
    colorSchemes := fragmentSchemes.foldl (fun m kv => schemesInsert m kv.1 kv.2) ug.colorSchemes }
  { st1 with gstore := st1.gstore.set st1.userSettings.globals ug' }

/-- Result of `SettingsLoader::DisableDeletedProfiles`: the updated loader, the
persisted generated-profile-GUID set as it stands after the run, and whether the
persisted state was written back. -/
structure DisableDeletedResult where
  loader : SettingsLoader
  generatedProfileIds : List Nat
  wroteState : Bool
  deriving DecidableEq, Repr

/-- The loop body of `SettingsLoader::DisableDeletedProfiles`: `emplace` the
profile's GUID into the generated-GUID set — an already-recorded GUID marks the
profile `deleted := true, hidden := true`, a newly seen GUID is added to the
set and flags it for write-back. -/
def disableStep (acc : Store × List Nat × Bool) (pid : Nat) : Store × List Nat × Bool :=
  let (s, ids, flag) := acc
  let guid := (getP s pid).guid
  if guid ∈ ids then
    (setP s pid { getP s pid with deleted := true, hidden := true }, ids, flag)
  else
    (s, ids ++ [guid], true)

/-- `SettingsLoader::DisableDeletedProfiles`: walk exactly the profiles appended
to the user profile list after parsing, applying `disableStep` to each; the
persisted set (held by the external `ApplicationState`) is passed in and is
written back exactly when a new GUID was recorded. -/
def disableDeletedProfiles (st : SettingsLoader) (persisted : List Nat) : DisableDeletedResult :=
  let appended := st.userSettings.profiles.drop st.userProfileCount
  let (store', ids', newFlag) := appended.foldl disableStep (st.store, persisted, false)
  { loader := { st with store := store' }
    generatedProfileIds := if newFlag then ids' else persisted
    wroteState := newFlag }

/-- `SettingsLoader::FinalizeLayering`: attach the inbox globals as parent of
the user globals and finalize the user globals; attach the inbox base-layer
profile as parent of the user base-layer profile and finalize it; then, for
every user profile in order, insert the user base-layer profile as parent at
position 0 and finalize it. -/
def finalizeLayering (st : SettingsLoader) : SettingsLoader :=
  let gstore1 := gInsertParent st.gstore st.userSettings.globals st.inboxSettings.globals
  let gstore2 := gFinalizeInheritance gstore1 st.userSettings.globals
  let store1 := insertParent st.store st.userSettings.baseLayerProfile st.inboxSettings.baseLayerProfile
  let store2 := profileFinalizeInheritance store1 st.userSettings.baseLayerProfile
  let store3 := st.userSettings.profiles.foldl
    (fun s pid => profileFinalizeInheritance (insertParentAt s 0 pid st.userSettings.baseLayerProfile) pid)
    store2
  { st with gstore := gstore2, store := store3 }

/-- A JSON value (the text parser itself is an external library per the spec;
the model starts from parsed values). -/
inductive Json where
  | null
  | bool (b : Bool)
  | num (n : Int)
  | str (s : String)
  | arr (items : List Json)
  | obj (members : List (String × Json))

/-- `Json::Value::isObject`. -/
def Json.isObj : Json → Bool
  | .obj _ => true
  | _ => false

/-- `Json::Value::isArray`. -/
def Json.isArr : Json → Bool
  | .arr _ => true
  | _ => false

/-- `Json::Value::isMember`. -/
def Json.hasMember : Json → String → Bool
  | .obj ms, k => (ms.lookup k).isSome
  | _, _ => false

/-- `SettingsLoader::_getJSONValue`: the named member when the value is an
object that has it, `null` otherwise. -/
def getJSONValue : Json → String → Json
  | .obj ms, k => ((ms.lookup k).getD .null)
  | _, _ => .null

/-- Range-for over a `Json::Value`: the items of an array, the member values of
an object, and nothing for every other kind. -/
def Json.forItems : Json → List Json
  | .arr items => items
  | .obj ms => ms.map (·.2)
  | _ => []

/-- The string value of a member, when present and a string. -/
def strMember (j : Json) (k : String) : Option String :=
  match getJSONValue j k with
  | .str s => some s
  | _ => none

/-- The boolean value of a member, when present and a boolean. -/
def boolMember (j : Json) (k : String) : Option Bool :=
  match getJSONValue j k with
  | .bool b => some b
  | _ => none

/-- The numeric value of a member, when present and a number. -/
def natMember (j : Json) (k : String) : Option Nat :=
  match getJSONValue j k with
  | .num n => some n.toNat
  | _ => none

/-- `SettingsLoader::_isValidProfileObject`: a profiles-list entry is valid only
if it is a JSON object with a `name` member (a GUID can be generated) or a
`guid` member. -/
def isValidProfileObject (profileJson : Json) : Bool :=
  profileJson.isObj && (profileJson.hasMember "name" || profileJson.hasMember "guid")

/-- Modelled from the spec: `Profile::FromJson` / `Profile::LayerJson` are not
among the analyzed sources; per the spec's data model a profile record carries
its identity fields, the `updates` patch target, and tri-state settings fields
read from the same-named JSON keys. -/
def profileFromJson (j : Json) : Profile :=
  { name := (strMember j "name").getD ""
    guidExplicit := (strMember j "guid").map guidFromString
    hidden := (boolMember j "hidden").getD false
    source := strMember j "source"
    updates := ((strMember j "updates").map guidFromString).getD 0
    historySize := natMember j "historySize"
    defaultAppearance := { colorSchemeName := strMember j "colorScheme" }
    unfocusedAppearance :=
      match getJSONValue j "unfocusedAppearance" with
      | .obj ms => some { colorSchemeName := strMember (.obj ms) "colorScheme" }
      | _ => none }

/-- Modelled from the spec: `ColorScheme::ValidateColorScheme` requires a scheme
object to carry its identity (`name`); `ColorScheme::FromJson` is keyed by that
name (the payload colors are irrelevant to every claim and modelled as the name
hash). -/
def validColorScheme (j : Json) : Bool :=
  j.hasMember "name"

/-- Modelled from the spec: the `(name, payload)` pair a parsed scheme object
contributes to the name-keyed scheme map. -/
def colorSchemeFromJson (j : Json) : String × Nat :=
  let n := (strMember j "name").getD ""
  (n, guidFromString n)

/-- `GlobalAppSettings::FromJson` / `GlobalAppSettings::LayerJson`: `FromJson`
layers the document onto a freshly constructed record, and `LayerJson` reads
each member with `JsonUtils::GetValueForKey`, which leaves the current
(default-constructed) value in place when the key is absent — hence the `getD`
fallbacks below.  Embedded for the members observed by the claims,
`DefaultProfileKey` (`"defaultProfile"`, a string) and
`DisabledProfileSourcesKey` (`"disabledProfileSources"`, an array of strings);
the remaining scalar keys and the action-map/keybinding layering are read the
same way and take no part in any claim. -/
def globalsFromJson (j : Json) : GlobalSettings :=
  { unparsedDefaultProfile := (strMember j "defaultProfile").getD ""
    disabledProfileSources :=
      match getJSONValue j "disabledProfileSources" with
      | .arr items => items.filterMap (fun e => match e with | .str s => some s | _ => none)
      | _ => [] }

/-- The loop body of the `profiles.list` pass of `SettingsLoader::_parse`: a
valid entry is parsed, stamped with the origin, given a materialized GUID when
it has none (`profile->Guid(profile->Guid())`), allocated in the arena and
appended via `_appendProfile`; an invalid entry is skipped. -/
def parseListEntry (origin : OriginTag)
    (acc : ParsedSettings × Store × List SettingsLoadWarnings) (e : Json) :
    ParsedSettings × Store × List SettingsLoadWarnings :=
  let (ps, store, w) := acc
  if isValidProfileObject e then
    let p := { profileFromJson e with origin := origin }
    let p := if p.guidExplicit.isNone then { p with guidExplicit := some p.guid } else p
    let pid := store.length
    let store' := store ++ [p]
    let (ps', w') := appendProfile store' pid ps w
    (ps', store', w')
  else
    acc

/-- The `profiles.list` pass of `SettingsLoader::_parse` over the list entries. -/
def parseProfilesList (origin : OriginTag) (entries : List Json)
    (acc : ParsedSettings × Store × List SettingsLoadWarnings) :
    ParsedSettings × Store × List SettingsLoadWarnings :=
  entries.foldl (parseListEntry origin) acc

/-- The result of `SettingsLoader::_parse` for one source. -/
structure ParseResult where
  settings : ParsedSettings
  store : Store
  gstore : GStore
  warnings : List SettingsLoadWarnings
  deriving Repr

/-- `SettingsLoader::_parse` from a parsed JSON document: build the globals
(with the top-level `schemes` folded in), the base-layer profile from
`profiles.defaults` (GUID forcibly cleared, origin `ProfilesDefaults`), and the
profile list from `profiles.list` — or from the `profiles` value itself when it
is an array. -/
def parseSettings (origin : OriginTag) (json : Json)
    (store : Store) (gstore : GStore) (w : List SettingsLoadWarnings) : ParseResult :=
  let profilesObject := getJSONValue json "profiles"
  let defaultsObject := getJSONValue profilesObject "defaults"
  let profilesArray := if profilesObject.isArr then profilesObject else getJSONValue profilesObject "list"
  let g0 := globalsFromJson json
  let g1 := { g0 with
    colorSchemes := (getJSONValue json "schemes").forItems.foldl
      (fun m e =>
        if e.isObj && validColorScheme e then
          let kv := colorSchemeFromJson e
          schemesInsert m kv.1 kv.2
        else m)
      g0.colorSchemes }
  let gid := gstore.length
  let gstore' := gstore ++ [g1]
  let base := { profileFromJson defaultsObject with guidExplicit := none, origin := .ProfilesDefaults }
  let bid := store.length
  let store1 := store ++ [base]
  let ps0 : ParsedSettings := { globals := gid, baseLayerProfile := bid }
  let (ps, store2, w') := parseProfilesList origin profilesArray.forItems (ps0, store1, w)
  { settings := ps, store := store2, gstore := gstore', warnings := w' }

/-- The top-level settings container (`CascadiaSettings`): the finalized arenas,
the globals record, the base-layer profile, the profile lists (`_allProfiles`
and the non-hidden `_activeProfiles`), warnings and the stored load error. -/
structure CascadiaS where
  store : Store := []
  gstore : GStore := []
  globals : Nat := 0
  baseLayerProfile : Nat := 0
  allProfiles : List Nat := []
  activeProfiles : List Nat := []
  warnings : List SettingsLoadWarnings := []
  loadError : Option SettingsLoadErrors := none
  deriving DecidableEq, Repr

/-- `CascadiaSettings::FindProfile`: the first profile in `_allProfiles` whose
GUID matches, if any. -/
def findProfile (c : CascadiaS) (guid : Nat) : Option Nat :=
  c.allProfiles.find? (fun pid => (getP c.store pid).guid = guid)

/-- `CascadiaSettings::_getProfileGuidByName`: a 38-character brace-led string
is first attempted as a GUID of an existing profile; otherwise (and on a miss)
the string is looked up as a profile name. -/
def getProfileGuidByName (c : CascadiaS) (name : String) : Option Nat :=
  if name = "" then none
  else
    let byGuid :=
      if name.length = 38 && name.front = '{' then
        let g := guidFromString name
        if (findProfile c g).isSome then some g else none
      else none
    match byGuid with
    | some g => some g
    | none => (c.allProfiles.find? (fun pid => (getP c.store pid).name = name)).map
        (fun pid => (getP c.store pid).guid)

/-- `GuidToString`: the serialized form a materialized default-profile GUID is
written back as. -/
def guidToString (g : Nat) : String := "\x7b" ++ toString g ++ "\x7d"

/-- `CascadiaSettings::_finalizeSettings`: resolve the `defaultProfile`
name-or-GUID string and store the GUID back; fall back to the first profile
plus a `MissingDefaultProfile` warning. -/
def finalizeSettings (c : CascadiaS) : CascadiaS :=
  let g := getG c.gstore c.globals
  match (if g.unparsedDefaultProfile ≠ "" then getProfileGuidByName c g.unparsedDefaultProfile else none) with
  | some guid =>
    let g' := { g with defaultProfile := guid, unparsedDefaultProfile := guidToString guid }
    { c with gstore := c.gstore.set c.globals g' }
  | none =>
    let first := (getP c.store (c.allProfiles.headD 0)).guid
    let g' := { g with defaultProfile := first, unparsedDefaultProfile := guidToString first }
    { c with
        gstore := c.gstore.set c.globals g'
        warnings := c.warnings ++ [.MissingDefaultProfile] }

/-- The first half of the per-profile body of
`CascadiaSettings::_validateAllSchemesExist`: clear the default appearance's
color-scheme name when the name it resolves to is not in the scheme map; the
flag records whether a dangling reference was found. -/
def clearDefaultScheme (schemes : List (String × Nat)) (fuel : Nat)
    (acc : Store × Bool) (pid : Nat) : Store × Bool :=
  let (s, found) := acc
  let p := getP s pid
  if ¬ schemesHasKey schemes (schemeNameOfDefault s fuel pid) then
    (setP s pid { p with defaultAppearance := { p.defaultAppearance with colorSchemeName := none } }, true)
  else (s, found)

/-- The second half of the per-profile body: when an unfocused appearance is
present, clear its color-scheme name when the name it resolves to (through the
possibly already-cleared default appearance) is not in the scheme map. -/
def clearUnfocusedScheme (schemes : List (String × Nat)) (fuel : Nat)
    (acc : Store × Bool) (pid : Nat) : Store × Bool :=
  let (s, found) := acc
  let p := getP s pid
  match p.unfocusedAppearance with
  | some ua =>
    if ¬ schemesHasKey schemes (schemeNameOfUnfocused s fuel pid ua) then
      (setP s pid { p with unfocusedAppearance := some { ua with colorSchemeName := none } }, true)
    else (s, found)
  | none => (s, found)

/-- The per-profile body of `CascadiaSettings::_validateAllSchemesExist`: the
default-appearance check followed by the unfocused-appearance check. -/
def validateSchemesStep (schemes : List (String × Nat)) (fuel : Nat)
    (acc : Store × Bool) (pid : Nat) : Store × Bool :=
  clearUnfocusedScheme schemes fuel (clearDefaultScheme schemes fuel acc pid) pid

/-- `CascadiaSettings::_validateAllSchemesExist`: repair every dangling
color-scheme reference on the default/unfocused appearances of `_allProfiles`
and append one aggregate `UnknownColorScheme` warning iff any was found. -/
def validateAllSchemesExist (fuel : Nat) (c : CascadiaS) : CascadiaS :=
  let schemes := (getG c.gstore c.globals).colorSchemes
  let (s', found) := c.allProfiles.foldl (validateSchemesStep schemes fuel) (c.store, false)
  { c with
      store := s'
      warnings := if found then c.warnings ++ [.UnknownColorScheme] else c.warnings }

/-- `CascadiaSettings::_validateKeybindings`: surface collected keybinding-parse
warnings behind one `AtLeastOneKeybindingWarning` marker. -/
def validateKeybindings (c : CascadiaS) : CascadiaS :=
  let kw := (getG c.gstore c.globals).keybindingsWarnings
  if kw.isEmpty then c
  else { c with warnings := c.warnings ++ [.AtLeastOneKeybindingWarning] ++ kw }

/-- `CascadiaSettings::_validateSettings`: the scheme and keybinding validators.
The media-resource validator needs the platform URI parser and the command
validator the action-map internals, both external to this model (and to every
claim). -/
def validateSettings (fuel : Nat) (c : CascadiaS) : CascadiaS :=
  validateKeybindings (validateAllSchemesExist fuel c)

/-- The `CascadiaSettings(SettingsLoader&&)` constructor: build `_allProfiles`
and the non-hidden `_activeProfiles` from the merged user profiles, throw
`NoProfiles` when the former is empty and `AllProfilesHidden` when the latter
is, then adopt the loader's graph and warnings and run `_finalizeSettings` and
`_validateSettings`.  Thrown `SettingsException`s are modelled as `Except`
errors. -/
def mkCascadiaSettings (fuel : Nat) (loader : SettingsLoader) :
    Except SettingsLoadErrors CascadiaS :=
  let allP := loader.userSettings.profiles
  let activeP := allP.filter (fun pid => !(getP loader.store pid).hidden)
  if allP.isEmpty then .error .NoProfiles
  else if activeP.isEmpty then .error .AllProfilesHidden
  else
    let c : CascadiaS :=
      { store := loader.store
        gstore := loader.gstore
        globals := loader.userSettings.globals
        baseLayerProfile := loader.userSettings.baseLayerProfile
        allProfiles := allP
        activeProfiles := activeP
        warnings := loader.warnings }
    .ok (validateSettings fuel (finalizeSettings c))

/-- The state threaded through the interned graph copy: the target arena being
built and the "visited" interning map from source-record index to its clone's
target index. -/
structure CopySt where
  target : Store := []
  visited : List (Nat × Nat) := []
  deriving DecidableEq, Repr

mutual

/-- Modelled from the spec: `Profile::CopyInterned` is not among the sources
(`Profile.cpp` is absent); per the spec a node already in the visited map
returns its cached clone; otherwise the value fields are cloned, `(node,
clone)` is inserted into the map before recursing into the parents, and the
recursively interned parent clones are attached as the clone's parents.
`fuel` bounds the recursion depth (the cache lookup is done before the fuel is
consumed). -/
def copyInterned (src : Store) : Nat → Nat → CopySt → Nat × CopySt
  | fuel, i, st =>
    match st.visited.lookup i with
    | some t => (t, st)
    | none =>
      let p := getP src i
      let t := st.target.length
      let st1 : CopySt :=
        { target := st.target ++ [{ p with parents := [] }]
          visited := st.visited ++ [(i, t)] }
      match fuel with
      | 0 => (t, st1)
      | f + 1 =>
        let (tps, st2) := copyList src f p.parents st1
        (t, { st2 with target := st2.target.set t { getP st2.target t with parents := tps } })

/-- Modelled from the spec: the interned copy of a list of nodes in order (the
body of `Profile::CopyInheritanceGraph`, also absent from the sources, and of
the parent recursion of `CopyInterned`). -/
def copyList (src : Store) : Nat → List Nat → CopySt → List Nat × CopySt
  | _, [], st => ([], st)
  | f, q :: qs, st =>
    let (t, st1) := copyInterned src f q st
    let (ts, st2) := copyList src f qs st1
    (t :: ts, st2)

end

mutual

/-- `GlobalAppSettings::Copy`: clone the value fields (scheme map, action map,
keybinding warnings included) and recursively clone each parent, attaching the
clones as parents (no interning — globals form a simple chain). -/
def copyGlobals (src : GStore) : Nat → Nat → GStore → Nat × GStore
  | 0, i, tgt => (tgt.length, tgt ++ [{ getG src i with parents := [] }])
  | f + 1, i, tgt =>
    let (pids, tgt1) := copyGlobalsList src f (getG src i).parents tgt
    (tgt1.length, tgt1 ++ [{ getG src i with parents := pids }])

/-- Recursive clone of a list of globals parents, in order. -/
def copyGlobalsList (src : GStore) : Nat → List Nat → GStore → List Nat × GStore
  | _, [], tgt => ([], tgt)
  | f, q :: qs, tgt =>
    let (t, tgt1) := copyGlobals src f q tgt
    let (ts, tgt2) := copyGlobalsList src f qs tgt1
    (t :: ts, tgt2)

end

/-- `CascadiaSettings::Copy`: clone the profile graph through one shared
visited map — the base-layer profile first, then every profile of
`_allProfiles` (`Profile::CopyInheritanceGraph`), rebuild `_activeProfiles`
from the non-hidden clones, deep-copy the globals, and carry over warnings and
the load error. -/
def CascadiaS.copy (c : CascadiaS) (fuel : Nat) : CascadiaS :=
  let (tb, st1) := copyInterned c.store fuel c.baseLayerProfile {}
  let (tps, st2) := copyList c.store fuel c.allProfiles st1
  let activeT := tps.filter (fun t => !(getP st2.target t).hidden)
  let (gid, gtgt) := copyGlobals c.gstore fuel c.globals []
  { store := st2.target
    gstore := gtgt
    globals := gid
    baseLayerProfile := tb
    allProfiles := tps
    activeProfiles := activeT
    warnings := c.warnings
    loadError := c.loadError }

/-- The base name tried first by `CascadiaSettings::DuplicateProfile`
(`"<name> (Copy)"`, with the localized copy suffix). -/
def dupBaseName (srcName : String) : String := srcName ++ " (Copy)"

/-- The numbered fallback names (`"<name> (Copy <k>)"`). -/
def dupNumberedName (srcName : String) (k : Nat) : String :=
  srcName ++ " (Copy " ++ toString k ++ ")"

/-- The name-disambiguation loop of `DuplicateProfile`: up to
`count = size + 1` rounds, keep the current candidate when no existing profile
carries it, else move to the numbered candidate `idx + 2`. -/
def chooseDupNameAux (names : List String) (srcName : String) : Nat → Nat → String → String
  | 0, _, current => current
  | k + 1, idx, current =>
    if names.all (fun n => n ≠ current) then current
    else chooseDupNameAux names srcName k (idx + 1) (dupNumberedName srcName (idx + 2))

/-- The chosen display name for a duplicated profile. -/
def chooseDupName (names : List String) (srcName : String) : String :=
  chooseDupNameAux names srcName (names.length + 1) 0 (dupBaseName srcName)

/-- `isProfilesDefaultsOrigin` of `DuplicateProfile` (note the C++ lambda,
despite its name, holds when the record exists and its origin is NOT
`ProfilesDefaults`). -/
def isProfilesDefaultsOrigin (s : Store) (o : Option Nat) : Bool :=
  match o with
  | some pid => (getP s pid).origin ≠ OriginTag.ProfilesDefaults
  | none => false

/-- `NEEDS_DUPLICATION(HistorySize)`: explicitly set on the source, or
inherited from a non-`profiles.defaults`-origin ancestor. -/
def needsDupHistorySize (s : Store) (fuel pid : Nat) : Bool :=
  (getP s pid).historySize.isSome ||
    isProfilesDefaultsOrigin s (historySizeOverrideSource s fuel pid)

/-- Modelled from the spec: the override source of the default appearance's
color-scheme name (the sub-object variant of the override-source walk). -/
def schemeNameOverrideSource (s : Store) : Nat → Nat → Option Nat
  | 0, _ => none
  | fuel + 1, i =>
    if (getP s i).defaultAppearance.colorSchemeName.isSome then some i
    else (getP s i).parents.findSome? (schemeNameOverrideSource s fuel)

/-- `NEEDS_DUPLICATION_SUB(appearance, ColorSchemeName)`. -/
def needsDupSchemeName (s : Store) (fuel pid : Nat) : Bool :=
  (getP s pid).defaultAppearance.colorSchemeName.isSome ||
    isProfilesDefaultsOrigin s (schemeNameOverrideSource s fuel pid)

/-- Modelled from the spec: the override source of the `unfocusedAppearance`
setting (treated as a single setting by `DuplicateProfile`). -/
def unfocusedOverrideSource (s : Store) : Nat → Nat → Option Nat
  | 0, _ => none
  | fuel + 1, i =>
    if (getP s i).unfocusedAppearance.isSome then some i
    else (getP s i).parents.findSome? (unfocusedOverrideSource s fuel)

/-- The resolved `UnfocusedAppearance()` record, first hit in graph order. -/
def resolveUnfocused (s : Store) : Nat → Nat → Option AppearanceConfig
  | 0, _ => none
  | fuel + 1, i =>
    match (getP s i).unfocusedAppearance with
    | some ua => some ua
    | none => (getP s i).parents.findSome? (resolveUnfocused s fuel)

/-- `NEEDS_DUPLICATION(UnfocusedAppearance)`. -/
def needsDupUnfocused (s : Store) (fuel pid : Nat) : Bool :=
  (getP s pid).unfocusedAppearance.isSome ||
    isProfilesDefaultsOrigin s (unfocusedOverrideSource s fuel pid)

/-- `CascadiaSettings::_createNewProfile`: `ReproduceProfile` of the base-layer
profile, then a freshly generated GUID (`CoCreateGuid` is external and passed
in) and the given name. -/
def createNewProfileNamed (c : CascadiaS) (freshGuid : Nat) (name : String) : Nat × Store :=
  let (pid, s1) := reproduceProfile c.store c.baseLayerProfile
  (pid, setP s1 pid { getP s1 pid with guidExplicit := some freshGuid, name := name })

/-- `CascadiaSettings::DuplicateProfile`: pick a fresh display name, create the
duplicate from the base layer, copy each modelled setting exactly when its
`NEEDS_DUPLICATION` guard holds (deliberately NOT the `Hidden` flag — see the
comment in the source), copy `ConnectionType` when explicitly set, and append
the duplicate to both `_allProfiles` and `_activeProfiles`.  The setters
receive the source's resolved getter values (`HistorySize()` defaults to 9001,
the scheme name to "Campbell"); the duplicated unfocused appearance is the
`CopyAppearance` of the resolved record, which in this model already resolves
through the owner's default appearance. -/
def duplicateProfile (c : CascadiaS) (fuel : Nat) (freshGuid : Nat) (srcPid : Nat) :
    Nat × CascadiaS :=
  let src := getP c.store srcPid
  let newName := chooseDupName (c.allProfiles.map (fun pid => (getP c.store pid).name)) src.name
  let (did, s1) := createNewProfileNamed c freshGuid newName
  let dup0 := getP s1 did
  let dup1 :=
    if needsDupHistorySize c.store fuel srcPid then
      { dup0 with historySize := some ((resolveHistorySize c.store fuel srcPid).getD 9001) }
    else dup0
  let dup2 :=
    if needsDupSchemeName c.store fuel srcPid then
      { dup1 with defaultAppearance :=
          { dup1.defaultAppearance with colorSchemeName := some (schemeNameOfDefault c.store fuel srcPid) } }
    else dup1
  let dup3 :=
    if needsDupUnfocused c.store fuel srcPid then
      { dup2 with unfocusedAppearance := resolveUnfocused c.store fuel srcPid }
    else dup2
  let dup4 :=
    if src.connectionType.isSome then { dup3 with connectionType := src.connectionType }
    else dup3
  let s2 := setP s1 did dup4
  (did, { c with
      store := s2
      allProfiles := c.allProfiles ++ [did]
      activeProfiles := c.activeProfiles ++ [did] })

/-- The state after cloning a fresh node `i`'s value fields: the clone (with no
parents yet) is appended to the target arena and `(i, clone)` is recorded in
the visited map — the first half of `copyInterned`'s uncached branch. -/
def freshSt (src : Store) (i : Nat) (st : CopySt) : CopySt :=
  { target := st.target ++ [{ getP src i with parents := [] }]
    visited := st.visited ++ [(i, st.target.length)] }

/-- Invariants relating a copy step's output state `st'` to its input `st`:
cached visited entries survive verbatim, the target arena only grows,
already-built target records are untouched, and every newly visited key is
either in the step's root set `ks` or is some source record's parent. -/
abbrev CopyInv (src : Store) (ks : List Nat) (st st' : CopySt) : Prop :=
  (∀ k t0, st.visited.lookup k = some t0 → st'.visited.lookup k = some t0) ∧
  st.target.length ≤ st'.target.length ∧
  (∀ n, n < st.target.length → getP st'.target n = getP st.target n) ∧
  (∀ k, (st'.visited.lookup k).isSome →
    (st.visited.lookup k).isSome ∨ k ∈ ks ∨ ∃ j, k ∈ (getP src j).parents)

/-! ### Basic arena and association-list lemmas -/

theorem getP_setP_ne (s : Store) (i j : Nat) (p : Profile) (h : j ≠ i) :
    getP (setP s i p) j = getP s j := by
  simp [getP, setP, List.getD, List.getElem?_set, Ne.symm h]

theorem getP_setP_self (s : Store) (i : Nat) (p : Profile) (h : i < s.length) :
    getP (setP s i p) i = p := by
  simp [getP, setP, List.getD, List.getElem?_set, h]

theorem getP_append_lt (s t : Store) (i : Nat) (h : i < s.length) :
    getP (s ++ t) i = getP s i := by
  simp [getP, List.getD, List.getElem?_append, h]

theorem getP_append_len (s : Store) (p : Profile) :
    getP (s ++ [p]) s.length = p := by
  simp [getP, List.getD, List.getElem?_concat_length]

theorem setP_length (s : Store) (i : Nat) (p : Profile) :
    (setP s i p).length = s.length := by
  simp [setP]

theorem lookup_isSome_iff_mem {α β : Type} [BEq α] [LawfulBEq α]
    (l : List (α × β)) (k : α) :
    (l.lookup k).isSome = true ↔ k ∈ l.map Prod.fst := by
  induction l with
  | nil => simp [List.lookup]
  | cons kv tl ih =>
    obtain ⟨a, b⟩ := kv
    by_cases h : k = a
    · subst h; simp [List.lookup]
    · have hba : (k == a) = false := beq_eq_false_iff_ne.2 h
      simp [List.lookup, hba, h, ih]

/-! ### Claim C5 -/

/-- Claim C5: `_appendProfile` de-duplicates by GUID within one parsed source —
a profile whose GUID is already in the source's GUID index is dropped (the
parsed settings are unchanged: nothing is merged or overwritten) and exactly
one `DuplicateProfile` warning is appended; a profile with a fresh GUID is
appended to both the profile list and the GUID index with no warning, so of two
profiles with the same GUID only the first survives. -/
theorem C5_appendProfile_dedups (s : Store) (ps : ParsedSettings)
    (w : List SettingsLoadWarnings) (pid : Nat) :
    ((getP s pid).guid ∈ ps.profilesByGuid.map Prod.fst →
      appendProfile s pid ps w = (ps, w ++ [SettingsLoadWarnings.DuplicateProfile])) ∧
    ((getP s pid).guid ∉ ps.profilesByGuid.map Prod.fst →
      appendProfile s pid ps w =
        ({ ps with
            profilesByGuid := ps.profilesByGuid ++ [((getP s pid).guid, pid)]
            profiles := ps.profiles ++ [pid] }, w)) := by
  constructor
  · intro h
    have hs := (lookup_isSome_iff_mem ps.profilesByGuid (getP s pid).guid).2 h
    simp [appendProfile, hs]
  · intro h
    have hs : (ps.profilesByGuid.lookup (getP s pid).guid).isSome = false := by
      rw [Bool.eq_false_iff]
      intro hc
      exact h ((lookup_isSome_iff_mem _ _).1 hc)
    simp [appendProfile, hs]

/-- A concrete source state for the C5 witness: one profile with GUID 7 already
appended, and a second parsed profile carrying the same explicit GUID. -/
def c5Store : Store :=
  [{ name := "a", guidExplicit := some 7 }, { name := "b", guidExplicit := some 7 }]

/-- The parsed settings after the first profile of `c5Store` was appended. -/
def c5Settings : ParsedSettings := { profiles := [0], profilesByGuid := [(7, 0)] }

/-- Witness for claim C5: appending the second profile with the already-seen
GUID 7 leaves the parsed settings untouched and records exactly one
`DuplicateProfile` warning. -/
theorem C5_appendProfile_dedups_witness :
    (getP c5Store 1).guid ∈ c5Settings.profilesByGuid.map Prod.fst ∧
    appendProfile c5Store 1 c5Settings [] =
      (c5Settings, [SettingsLoadWarnings.DuplicateProfile]) := by
  refine ⟨by decide, ?_⟩
  have h := (C5_appendProfile_dedups c5Store c5Settings [] 1).1 (by decide)
  simpa using h

/-! ### Claim C8 -/

/-- Skipping an invalid entry changes nothing: `parseListEntry` is the identity
on the accumulator for entries failing `_isValidProfileObject`. -/
theorem parseListEntry_invalid (origin : OriginTag)
    (acc : ParsedSettings × Store × List SettingsLoadWarnings) (e : Json)
    (h : ¬ isValidProfileObject e = true) :
    parseListEntry origin acc e = acc := by
  obtain ⟨ps, store, w⟩ := acc
  simp [parseListEntry, h]

/-- Claim C8: a profiles-list entry is accepted by `_parse` exactly when it is
a JSON object with a `name` or a `guid` member; every failing entry is skipped
without appending a profile and without appending a warning (processing an
entry list equals processing only its valid entries), and parsing a source
whose only profile entry lacks both name and guid yields an empty profile list
for that source and no warnings. -/
theorem C8_parse_accepts_iff_valid :
    (∀ ms : List (String × Json),
      isValidProfileObject (Json.obj ms) =
        ((ms.lookup "name").isSome || (ms.lookup "guid").isSome)) ∧
    (∀ e : Json, e.isObj = false → isValidProfileObject e = false) ∧
    (∀ (origin : OriginTag) (entries : List Json)
        (acc : ParsedSettings × Store × List SettingsLoadWarnings),
      parseProfilesList origin entries acc =
        parseProfilesList origin (entries.filter isValidProfileObject) acc) ∧
    ((parseSettings .User
        (.obj [("profiles", .arr [.obj [("hidden", .bool true)]])]) [] [] []).settings.profiles = []
      ∧
     (parseSettings .User
        (.obj [("profiles", .arr [.obj [("hidden", .bool true)]])]) [] [] []).warnings = []) := by
  refine ⟨?_, ?_, ?_, by decide, by decide⟩
  · intro ms
    simp [isValidProfileObject, Json.isObj, Json.hasMember]
  · intro e h
    cases e <;> simp_all [isValidProfileObject, Json.isObj]
  · intro origin entries acc
    induction entries generalizing acc with
    | nil => rfl
    | cons e tl ih =>
      by_cases h : isValidProfileObject e = true
      · rw [List.filter_cons_of_pos h]
        simp only [parseProfilesList, List.foldl] at ih ⊢
        exact ih _
      · rw [List.filter_cons_of_neg (by simpa using h)]
        simp only [parseProfilesList, List.foldl] at ih ⊢
        rw [parseListEntry_invalid origin acc e h]
        exact ih _

/-- Witness for claim C8: a profile entry that is an object without `name` and
`guid` is invalid, and processing a list holding only that entry is the same as
processing the empty list. -/
theorem C8_parse_accepts_iff_valid_witness :
    isValidProfileObject (Json.obj [("hidden", Json.bool true)]) = false ∧
    parseProfilesList OriginTag.User [Json.obj [("hidden", Json.bool true)]]
        ({}, [], []) =
      parseProfilesList OriginTag.User [] ({}, [], []) := by
  constructor
  · have h := C8_parse_accepts_iff_valid.1 [("hidden", Json.bool true)]
    simpa using h
  · have h := C8_parse_accepts_iff_valid.2.2.1 OriginTag.User
      [Json.obj [("hidden", Json.bool true)]] ({}, [], [])
    simpa using h

/-! ### Claim C6 -/

/-- `_finalizeSettings` only touches the globals record and the warning list. -/
theorem finalizeSettings_fields (c : CascadiaS) :
    (finalizeSettings c).allProfiles = c.allProfiles ∧
    (finalizeSettings c).activeProfiles = c.activeProfiles ∧
    (finalizeSettings c).store = c.store := by
  simp only [finalizeSettings]
  split <;> simp

/-- `_validateAllSchemesExist` only touches the profile arena and the warning
list. -/
theorem validateAllSchemesExist_fields (fuel : Nat) (c : CascadiaS) :
    (validateAllSchemesExist fuel c).allProfiles = c.allProfiles ∧
    (validateAllSchemesExist fuel c).activeProfiles = c.activeProfiles ∧
    (validateAllSchemesExist fuel c).globals = c.globals ∧
    (validateAllSchemesExist fuel c).gstore = c.gstore := by
  simp only [validateAllSchemesExist]
  rcases hq : c.allProfiles.foldl
      (validateSchemesStep (getG c.gstore c.globals).colorSchemes fuel)
      (c.store, false) with ⟨s', found⟩
  simp [hq]

/-- `_validateKeybindings` only touches the warning list. -/
theorem validateKeybindings_fields (c : CascadiaS) :
    (validateKeybindings c).allProfiles = c.allProfiles ∧
    (validateKeybindings c).activeProfiles = c.activeProfiles ∧
    (validateKeybindings c).store = c.store := by
  simp only [validateKeybindings]
  split <;> simp

/-- `_validateSettings` preserves the profile lists. -/
theorem validateSettings_profile_lists (fuel : Nat) (c : CascadiaS) :
    (validateSettings fuel c).allProfiles = c.allProfiles ∧
    (validateSettings fuel c).activeProfiles = c.activeProfiles := by
  unfold validateSettings
  constructor
  · rw [(validateKeybindings_fields _).1, (validateAllSchemesExist_fields fuel _).1]
  · rw [(validateKeybindings_fields _).2.1, (validateAllSchemesExist_fields fuel _).2.1]

/-- Claim C6: the `CascadiaSettings(SettingsLoader&&)` construction fails with
the `NoProfiles` error exactly when the merged user profile list is empty, and
with `AllProfilesHidden` exactly when it is non-empty but every profile in it is
hidden; in both cases no settings graph is produced (the `Except` error carries
the descriptor instead of crashing), and otherwise `AllProfiles` holds every
merged profile and `ActiveProfiles` exactly the non-hidden ones. -/
theorem C6_ctor_errors (fuel : Nat) (loader : SettingsLoader) :
    (mkCascadiaSettings fuel loader = .error .NoProfiles ↔
      loader.userSettings.profiles = []) ∧
    (mkCascadiaSettings fuel loader = .error .AllProfilesHidden ↔
      (loader.userSettings.profiles ≠ [] ∧
        ∀ pid ∈ loader.userSettings.profiles, (getP loader.store pid).hidden = true)) ∧
    (∀ c, mkCascadiaSettings fuel loader = .ok c →
      c.allProfiles = loader.userSettings.profiles ∧
      c.activeProfiles = loader.userSettings.profiles.filter
        (fun pid => !(getP loader.store pid).hidden)) := by
  simp only [mkCascadiaSettings]
  by_cases h1 : loader.userSettings.profiles.isEmpty
  · have h1' : loader.userSettings.profiles = [] := List.isEmpty_iff.1 h1
    simp [h1, h1']
  · have h1' : loader.userSettings.profiles ≠ [] := by
      simpa [List.isEmpty_iff] using h1
    by_cases h2 : (loader.userSettings.profiles.filter
        (fun pid => !(getP loader.store pid).hidden)).isEmpty
    · have h2' : ∀ pid ∈ loader.userSettings.profiles, (getP loader.store pid).hidden = true := by
        intro pid hp
        have hnil := List.isEmpty_iff.1 h2
        have hmem := List.filter_eq_nil_iff.1 hnil pid hp
        simpa using hmem
      refine ⟨by simp [h1, h2, h1'], ?_, by simp [h1, h2]⟩
      rw [if_neg (by simpa using h1), if_pos h2]
      simp only [true_iff, iff_true]
      exact ⟨h1', h2'⟩
    · have h2' : ¬ (loader.userSettings.profiles ≠ [] ∧
          ∀ pid ∈ loader.userSettings.profiles, (getP loader.store pid).hidden = true) := by
        rintro ⟨-, hall⟩
        apply h2
        rw [List.isEmpty_iff, List.filter_eq_nil_iff]
        intro pid hp
        simp [hall pid hp]
      refine ⟨by simp [h1, h2, h1'], ?_, ?_⟩
      · rw [if_neg (by simpa using h1), if_neg (by simpa using h2)]
        constructor
        · intro h; simp at h
        · intro hr; exact absurd hr h2'
      intro c hc
      rw [if_neg (by simpa using h1), if_neg (by simpa using h2)] at hc
      injection hc with hc'
      rw [← hc']
      obtain ⟨f1, f2, -⟩ := finalizeSettings_fields
        { store := loader.store
          gstore := loader.gstore
          globals := loader.userSettings.globals
          baseLayerProfile := loader.userSettings.baseLayerProfile
          allProfiles := loader.userSettings.profiles
          activeProfiles := loader.userSettings.profiles.filter
            (fun pid => !(getP loader.store pid).hidden)
          warnings := loader.warnings }
      obtain ⟨v1, v2⟩ := validateSettings_profile_lists fuel (finalizeSettings
        { store := loader.store
          gstore := loader.gstore
          globals := loader.userSettings.globals
          baseLayerProfile := loader.userSettings.baseLayerProfile
          allProfiles := loader.userSettings.profiles
          activeProfiles := loader.userSettings.profiles.filter
            (fun pid => !(getP loader.store pid).hidden)
          warnings := loader.warnings })
      exact ⟨v1.trans f1, v2.trans f2⟩

/-- A concrete merged loader with one visible profile, for the C6 witness. -/
def c6Loader : SettingsLoader :=
  { store := [{ name := "Shell", guidExplicit := some 7 }]
    userSettings := { profiles := [0], profilesByGuid := [(7, 0)] } }

/-- The settings container `c6Loader` constructs. -/
def c6Result : CascadiaS :=
  { store := [{ name := "Shell", guidExplicit := some 7 }]
    gstore := []
    globals := 0
    baseLayerProfile := 0
    allProfiles := [0]
    activeProfiles := [0]
    warnings := [.MissingDefaultProfile, .UnknownColorScheme]
    loadError := none }

/-- Witness for claim C6: an empty loader fails with `NoProfiles`, and the
one-profile loader succeeds with that profile in both lists. -/
theorem C6_ctor_errors_witness :
    mkCascadiaSettings 1 ({} : SettingsLoader) = .error .NoProfiles ∧
    (c6Result.allProfiles = [0] ∧ c6Result.activeProfiles = [0]) := by
  refine ⟨(C6_ctor_errors 1 {}).1.mpr rfl, ?_⟩
  have h := (C6_ctor_errors 1 c6Loader).2.2 c6Result (by rfl)
  simpa using h

/-! ### Claim C3 -/

/-- A loader about to run `MergeInboxIntoUserProfiles`: one user profile with
GUID 7, one generated profile matching it and one brand-new generated profile
with GUID 8. -/
def c3Loader : SettingsLoader :=
  { store := [{ name := "user", guidExplicit := some 7, origin := .User },
              { name := "gen7", guidExplicit := some 7, origin := .InBox },
              { name := "gen8", guidExplicit := some 8, origin := .InBox }]
    inboxSettings := { profiles := [1, 2] }
    userSettings := { profiles := [0], profilesByGuid := [(7, 0)] } }

/-- Claim C3: `MergeInboxIntoUserProfiles` handles every inbox/generated
profile `g` as follows — when the user GUID index already holds `g`'s GUID, `g`
is inserted as an additional (appended) parent of the indexed profile and
nothing else changes (the user profile's own fields keep winning); when the
GUID is absent, a new user-origin profile copying `g`'s name, GUID and hidden
flag with `g` as its single parent is synthesized and appended to the user
profile list, and the GUID is registered in the index.  The concrete run merges
one matching and one new generated profile exactly this way. -/
theorem C3_mergeInbox_spec (st : SettingsLoader) (g : Nat) :
    (∀ uid, st.userSettings.profilesByGuid.lookup (getP st.store g).guid = some uid →
      uid < st.store.length →
      getP (mergeInboxStep st g).store uid =
        { getP st.store uid with parents := (getP st.store uid).parents ++ [g] } ∧
      (∀ j, j ≠ uid → getP (mergeInboxStep st g).store j = getP st.store j) ∧
      (mergeInboxStep st g).userSettings = st.userSettings ∧
      (mergeInboxStep st g).warnings = st.warnings) ∧
    (st.userSettings.profilesByGuid.lookup (getP st.store g).guid = none →
      (mergeInboxStep st g).userSettings.profiles =
        st.userSettings.profiles ++ [st.store.length] ∧
      (mergeInboxStep st g).userSettings.profilesByGuid =
        st.userSettings.profilesByGuid ++ [((getP st.store g).guid, g)] ∧
      getP (mergeInboxStep st g).store st.store.length =
        { name := (getP st.store g).name
          guidExplicit := some ((getP st.store g).guid)
          hidden := (getP st.store g).hidden
          origin := OriginTag.User
          parents := [g] } ∧
      (∀ j, j < st.store.length → getP (mergeInboxStep st g).store j = getP st.store j) ∧
      (mergeInboxStep st g).warnings = st.warnings) ∧
    ((mergeInboxIntoUserProfiles c3Loader).userSettings.profiles = [0, 3] ∧
      (getP (mergeInboxIntoUserProfiles c3Loader).store 0).parents = [1] ∧
      getP (mergeInboxIntoUserProfiles c3Loader).store 3 =
        { name := "gen8", guidExplicit := some 8, origin := OriginTag.User, parents := [2] } ∧
      (mergeInboxIntoUserProfiles c3Loader).userSettings.profilesByGuid = [(7, 0), (8, 2)]) := by
  refine ⟨?_, ?_, by decide⟩
  · intro uid hlk hlt
    simp only [mergeInboxStep, hlk]
    exact ⟨getP_setP_self _ _ _ hlt, fun j hj => getP_setP_ne _ _ _ _ hj, trivial, trivial⟩
  · intro hlk
    simp only [mergeInboxStep, hlk, reproduceProfile]
    refine ⟨by trivial, by trivial, getP_append_len _ _, fun j hj => getP_append_lt _ _ _ hj, by trivial⟩

/-- Witness for claim C3: the two cases of the merge step at the concrete
loader — generated profile 1 hits the index (parent appended to profile 0),
generated profile 2 misses (profile reproduced and appended). -/
theorem C3_mergeInbox_spec_witness :
    (getP (mergeInboxStep c3Loader 1).store 0).parents = [1] ∧
    (mergeInboxStep c3Loader 2).userSettings.profiles = [0, 3] := by
  constructor
  · have h := ((C3_mergeInbox_spec c3Loader 1).1 0 (by decide) (by decide)).1
    rw [h]
    decide
  · have h := ((C3_mergeInbox_spec c3Loader 2).2.1 (by decide)).1
    simpa using h

/-! ### Claim C4 -/

/-- The full behaviour of the `disableStep` fold: on a list of profile indices
with pairwise-distinct GUIDs, profiles outside the list are untouched, a listed
profile whose GUID is already in the incoming set is marked deleted and hidden,
a listed profile with a fresh GUID is left entirely unchanged, the set grows by
exactly the fresh GUIDs in order, and the flag reports whether any GUID was
fresh. -/
theorem disableFold_spec (l : List Nat) (s : Store) (ids : List Nat) (flag : Bool)
    (hnd : (l.map (fun pid => (getP s pid).guid)).Nodup)
    (hlt : ∀ pid ∈ l, pid < s.length) :
    (∀ j, j ∉ l → getP (l.foldl disableStep (s, ids, flag)).1 j = getP s j) ∧
    (∀ pid ∈ l, (getP s pid).guid ∈ ids →
      getP (l.foldl disableStep (s, ids, flag)).1 pid =
        { getP s pid with deleted := true, hidden := true }) ∧
    (∀ pid ∈ l, (getP s pid).guid ∉ ids →
      getP (l.foldl disableStep (s, ids, flag)).1 pid = getP s pid) ∧
    ((l.foldl disableStep (s, ids, flag)).2.1 =
      ids ++ (l.map (fun pid => (getP s pid).guid)).filter (fun g => g ∉ ids)) ∧
    ((l.foldl disableStep (s, ids, flag)).2.2 = true ↔
      flag = true ∨ ∃ pid ∈ l, (getP s pid).guid ∉ ids) := by
  induction l generalizing s ids flag with
  | nil => simp
  | cons pid tl ih =>
    have hpidtl : pid ∉ tl := by
      intro hmemtl
      exact (List.nodup_cons.1 hnd).1
        (List.mem_map_of_mem (fun q => (getP s q).guid) hmemtl)
    have hguid_notin : (getP s pid).guid ∉ tl.map (fun q => (getP s q).guid) :=
      (List.nodup_cons.1 hnd).1
    have hndtl : (tl.map (fun q => (getP s q).guid)).Nodup := (List.nodup_cons.1 hnd).2
    have hpidlt : pid < s.length := hlt pid (List.mem_cons_self pid tl)
    by_cases hmem : (getP s pid).guid ∈ ids
    · -- `guid` already recorded: the profile is marked deleted and hidden
      have hstep : disableStep (s, ids, flag) pid =
          (setP s pid { getP s pid with deleted := true, hidden := true }, ids, flag) := by
        simp [disableStep, hmem]
      have hgeq : ∀ q ∈ tl,
          getP (setP s pid { getP s pid with deleted := true, hidden := true }) q = getP s q := by
        intro q hq
        exact getP_setP_ne _ _ _ _ (fun h => hpidtl (h ▸ hq))
      have hmapeq : tl.map (fun q =>
          (getP (setP s pid { getP s pid with deleted := true, hidden := true }) q).guid) =
          tl.map (fun q => (getP s q).guid) :=
        List.map_congr_left (fun q hq => by rw [hgeq q hq])
      obtain ⟨ihA, ihB, ihC, ihD, ihE⟩ :=
        ih (setP s pid { getP s pid with deleted := true, hidden := true }) ids flag
          (by rw [hmapeq]; exact hndtl)
          (by intro q hq; rw [setP_length]; exact hlt q (List.mem_cons_of_mem _ hq))
      rw [List.foldl_cons, hstep]
      refine ⟨?_, ?_, ?_, ?_, ?_⟩
      · intro j hj
        rw [ihA j (fun h => hj (List.mem_cons_of_mem _ h))]
        exact getP_setP_ne _ _ _ _ (fun h => hj (h ▸ List.mem_cons_self pid tl))
      · intro q hq hqid
        rcases List.mem_cons.1 hq with h | h
        · subst h
          rw [ihA q hpidtl]
          exact getP_setP_self _ _ _ hpidlt
        · rw [ihB q h (by rw [hgeq q h]; exact hqid), hgeq q h]
      · intro q hq hqid
        rcases List.mem_cons.1 hq with h | h
        · subst h; exact absurd hmem hqid
        · rw [ihC q h (by rw [hgeq q h]; exact hqid), hgeq q h]
      · rw [ihD, hmapeq, List.map_cons, List.filter_cons]
        simp [hmem]
      · rw [ihE]
        constructor
        · rintro (h | ⟨q, hq, hqg⟩)
          · exact Or.inl h
          · exact Or.inr ⟨q, List.mem_cons_of_mem _ hq, by rw [← hgeq q hq]; exact hqg⟩
        · rintro (h | ⟨q, hq, hqg⟩)
          · exact Or.inl h
          · rcases List.mem_cons.1 hq with h' | h'
            · subst h'; exact absurd hmem hqg
            · exact Or.inr ⟨q, h', by rw [hgeq q h']; exact hqg⟩
    · -- fresh `guid`: added to the set, profile untouched
      have hstep : disableStep (s, ids, flag) pid = (s, ids ++ [(getP s pid).guid], true) := by
        simp [disableStep, hmem]
      obtain ⟨ihA, ihB, ihC, ihD, ihE⟩ := ih s (ids ++ [(getP s pid).guid]) true hndtl
        (fun q hq => hlt q (List.mem_cons_of_mem _ hq))
      rw [List.foldl_cons, hstep]
      refine ⟨?_, ?_, ?_, ?_, ?_⟩
      · intro j hj
        exact ihA j (fun h => hj (List.mem_cons_of_mem _ h))
      · intro q hq hqid
        rcases List.mem_cons.1 hq with h | h
        · subst h; exact absurd hqid hmem
        · exact ihB q h (List.mem_append_left _ hqid)
      · intro q hq hqid
        rcases List.mem_cons.1 hq with h | h
        · subst h; exact ihA q hpidtl
        · refine ihC q h ?_
          intro hc
          rcases List.mem_append.1 hc with hc' | hc'
          · exact hqid hc'
          · have : (getP s q).guid = (getP s pid).guid := List.mem_singleton.1 hc'
            exact hguid_notin (this ▸ List.mem_map_of_mem (fun r => (getP s r).guid) h)
      · rw [ihD]
        have hfc : (tl.map (fun q => (getP s q).guid)).filter
            (fun g => g ∉ ids ++ [(getP s pid).guid]) =
            (tl.map (fun q => (getP s q).guid)).filter (fun g => g ∉ ids) := by
          refine List.filter_congr ?_
          intro x hx
          have hxg : x ≠ (getP s pid).guid := fun h => hguid_notin (h ▸ hx)
          simp [List.mem_append, hxg]
        rw [hfc, List.map_cons, List.filter_cons]
        simp [hmem, List.append_assoc]
      · rw [ihE]
        simp only [true_or, true_iff]
        exact Or.inr ⟨pid, List.mem_cons_self pid tl, hmem⟩

/-- Claim C4: `DisableDeletedProfiles` examines exactly the profiles appended
to the user profile list after parsing (everything past `userProfileCount`,
never the profiles the user wrote): an appended profile whose GUID is already
in the persisted generated-GUID set is marked `deleted := true, hidden := true`
(so a GUID once recorded never resurfaces as a visible re-synthesized profile),
one with a new GUID is left entirely unchanged (a visible one stays visible)
and its GUID joins the persisted set, which is written back exactly when at
least one new GUID was added. -/
theorem C4_disableDeleted_spec (st : SettingsLoader) (persisted : List Nat)
    (hnd : ((st.userSettings.profiles.drop st.userProfileCount).map
      (fun pid => (getP st.store pid).guid)).Nodup)
    (hlt : ∀ pid ∈ st.userSettings.profiles.drop st.userProfileCount,
      pid < st.store.length) :
    (∀ j, j ∉ st.userSettings.profiles.drop st.userProfileCount →
      getP (disableDeletedProfiles st persisted).loader.store j = getP st.store j) ∧
    (∀ pid ∈ st.userSettings.profiles.drop st.userProfileCount,
      (getP st.store pid).guid ∈ persisted →
      getP (disableDeletedProfiles st persisted).loader.store pid =
        { getP st.store pid with deleted := true, hidden := true }) ∧
    (∀ pid ∈ st.userSettings.profiles.drop st.userProfileCount,
      (getP st.store pid).guid ∉ persisted →
      getP (disableDeletedProfiles st persisted).loader.store pid = getP st.store pid) ∧
    ((disableDeletedProfiles st persisted).generatedProfileIds =
      persisted ++ ((st.userSettings.profiles.drop st.userProfileCount).map
        (fun pid => (getP st.store pid).guid)).filter (fun g => g ∉ persisted)) ∧
    ((disableDeletedProfiles st persisted).wroteState = true ↔
      ∃ pid ∈ st.userSettings.profiles.drop st.userProfileCount,
        (getP st.store pid).guid ∉ persisted) := by
  obtain ⟨hA, hB, hC, hD, hE⟩ := disableFold_spec
    (st.userSettings.profiles.drop st.userProfileCount) st.store persisted false hnd hlt
  rcases ht : (st.userSettings.profiles.drop st.userProfileCount).foldl disableStep
      (st.store, persisted, false) with ⟨store', ids', newFlag⟩
  rw [ht] at hA hB hC hD hE
  have hE' : newFlag = true ↔
      ∃ pid ∈ st.userSettings.profiles.drop st.userProfileCount,
        (getP st.store pid).guid ∉ persisted := by
    rw [hE]; simp
  have hout : disableDeletedProfiles st persisted =
      { loader := { st with store := store' }
        generatedProfileIds := if newFlag then ids' else persisted
        wroteState := newFlag } := by
    simp [disableDeletedProfiles, ht]
  refine ⟨?_, ?_, ?_, ?_, ?_⟩
  · intro j hj; rw [hout]; exact hA j hj
  · intro pid hp hg; rw [hout]; exact hB pid hp hg
  · intro pid hp hg; rw [hout]; exact hC pid hp hg
  · rw [hout]
    by_cases hf : newFlag
    · simp only [hf, if_true]
      exact hD
    · simp only [hf, if_false, Bool.false_eq_true]
      have hnone : ¬ ∃ pid ∈ st.userSettings.profiles.drop st.userProfileCount,
          (getP st.store pid).guid ∉ persisted := by
        rw [← hE']; simpa using hf
      have hfe : ((st.userSettings.profiles.drop st.userProfileCount).map
          (fun pid => (getP st.store pid).guid)).filter (fun g => g ∉ persisted) = [] := by
        rw [List.filter_eq_nil_iff]
        rintro x hx
        rcases List.mem_map.1 hx with ⟨pid, hpid, rfl⟩
        by_contra hxn
        refine hnone ⟨pid, hpid, ?_⟩
        simpa using hxn
      rw [hfe, List.append_nil]
  · rw [hout]
    exact hE'

/-- A loader after the merge phases, for the C4 witness: one user-authored
profile (index 0) and two appended generated profiles, whose GUID 8 is already
in the persisted set while GUID 9 is new. -/
def c4Loader : SettingsLoader :=
  { store := [{ name := "user", guidExplicit := some 7, origin := .User },
              { name := "seen", guidExplicit := some 8, origin := .User },
              { name := "new", guidExplicit := some 9, origin := .User }]
    userSettings := { profiles := [0, 1, 2], profilesByGuid := [(7, 0), (8, 1), (9, 2)] }
    userProfileCount := 1 }

/-- Witness for claim C4: on `c4Loader` with persisted set `[8]`, the appended
profile with GUID 8 is suppressed, the one with GUID 9 stays untouched, GUID 9
is recorded and the state written back. -/
theorem C4_disableDeleted_spec_witness :
    getP (disableDeletedProfiles c4Loader [8]).loader.store 1 =
      { name := "seen", guidExplicit := some 8, origin := .User,
        deleted := true, hidden := true } ∧
    getP (disableDeletedProfiles c4Loader [8]).loader.store 2 =
      { name := "new", guidExplicit := some 9, origin := .User } ∧
    (disableDeletedProfiles c4Loader [8]).generatedProfileIds = [8, 9] ∧
    (disableDeletedProfiles c4Loader [8]).wroteState = true := by
  obtain ⟨-, hB, hC, hD, hE⟩ := C4_disableDeleted_spec c4Loader [8] (by decide) (by decide)
  refine ⟨?_, ?_, ?_, ?_⟩
  · have h := hB 1 (by decide) (by decide)
    rw [h]; decide
  · have h := hC 2 (by decide) (by decide)
    rw [h]; decide
  · rw [hD]; decide
  · rw [hE]
    exact ⟨2, by decide, by decide⟩

/-! ### Claim C2 -/

/-- A loader facing a fragment profile (index 1) whose non-empty `updates` GUID
5 matches no user profile. -/
def c2DropLoader : SettingsLoader :=
  { store := [{ name := "user", guidExplicit := some 7, origin := .User },
              { name := "frag", guidExplicit := some 9, updates := 5, origin := .Fragment }]
    gstore := [{}]
    userSettings := { profiles := [0], profilesByGuid := [(7, 0)] } }

/-- Counterexample to claim C2 as stated: the fragment profile carries the
non-empty `updates` GUID 5, no user profile has that GUID, and
`MergeFragmentsIntoUserProfiles` leaves the loader completely unchanged — the
fragment profile is dropped, not appended to the user profile list as a new
user-origin profile. -/
theorem C2_counterexample :
    (getP c2DropLoader.store 1).updates = 5 ∧
    (getP c2DropLoader.store 1).updates ≠ 0 ∧
    c2DropLoader.userSettings.profilesByGuid.lookup 5 = none ∧
    mergeFragmentDocument "ns" [1] [] c2DropLoader = c2DropLoader ∧
    (mergeFragmentDocument "ns" [1] [] c2DropLoader).userSettings.profiles = [0] := by
  refine ⟨rfl, by decide, rfl, by decide, by decide⟩

/-- Claim C2 (amended): during `MergeFragmentsIntoUserProfiles`, a fragment
profile with a non-empty `updates` GUID matching an existing user profile gets
its `source` stamped and is inserted as that profile's parent at position 0
(highest priority), so a fragment-set field overrides the same field of an
inbox/generated parent but never a value explicitly set on the user profile
itself; a fragment profile with a non-empty `updates` GUID matching no user
profile is skipped entirely; and a fragment profile with an empty `updates`
GUID is appended (source stamped, then `ReproduceProfile` through the
GUID-de-duplicating `_appendProfile`) as a new user-origin profile inheriting
from the fragment profile. -/
theorem C2_mergeFragments_spec (src : String) (st : SettingsLoader) (fp : Nat)
    (hfplt : fp < st.store.length) :
    (∀ uid, (getP st.store fp).updates ≠ 0 →
      st.userSettings.profilesByGuid.lookup (getP st.store fp).updates = some uid →
      uid ≠ fp → uid < st.store.length →
      getP (layerFragmentProfile src st fp).store fp =
        { getP st.store fp with source := some src } ∧
      getP (layerFragmentProfile src st fp).store uid =
        { getP st.store uid with parents := fp :: (getP st.store uid).parents } ∧
      (∀ j, j ≠ uid → j ≠ fp → getP (layerFragmentProfile src st fp).store j = getP st.store j) ∧
      (layerFragmentProfile src st fp).userSettings = st.userSettings ∧
      (layerFragmentProfile src st fp).warnings = st.warnings ∧
      (∀ f v, (getP st.store fp).historySize = some v →
        (getP st.store uid).historySize = none →
        resolveHistorySize (layerFragmentProfile src st fp).store (f + 2) uid = some v) ∧
      (∀ f w, (getP st.store uid).historySize = some w →
        resolveHistorySize (layerFragmentProfile src st fp).store (f + 1) uid = some w)) ∧
    ((getP st.store fp).updates ≠ 0 →
      st.userSettings.profilesByGuid.lookup (getP st.store fp).updates = none →
      layerFragmentProfile src st fp = st) ∧
    ((getP st.store fp).updates = 0 →
      (({ getP st.store fp with source := some src } : Profile).guid ∉
        st.userSettings.profilesByGuid.map Prod.fst) →
      (layerFragmentProfile src st fp).userSettings.profiles =
        st.userSettings.profiles ++ [st.store.length] ∧
      getP (layerFragmentProfile src st fp).store st.store.length =
        { name := (getP st.store fp).name
          guidExplicit := some (({ getP st.store fp with source := some src } : Profile).guid)
          hidden := (getP st.store fp).hidden
          origin := OriginTag.User
          parents := [fp] } ∧
      getP (layerFragmentProfile src st fp).store fp =
        { getP st.store fp with source := some src } ∧
      (layerFragmentProfile src st fp).warnings = st.warnings) := by
  refine ⟨?_, ?_, ?_⟩
  · intro uid hu hlk hne hlt
    have hout : (layerFragmentProfile src st fp).store =
        insertParentAt (setP st.store fp { getP st.store fp with source := some src }) 0 uid fp ∧
        (layerFragmentProfile src st fp).userSettings = st.userSettings ∧
        (layerFragmentProfile src st fp).warnings = st.warnings := by
      simp only [layerFragmentProfile, if_pos hu, hlk]
      exact ⟨trivial, trivial, trivial⟩
    obtain ⟨hso, hus, hw⟩ := hout
    have hfp1 : getP (setP st.store fp { getP st.store fp with source := some src }) fp =
        { getP st.store fp with source := some src } := getP_setP_self _ _ _ hfplt
    have huid1 : getP (setP st.store fp { getP st.store fp with source := some src }) uid =
        getP st.store uid := getP_setP_ne _ _ _ _ hne
    have hlt1 : uid < (setP st.store fp { getP st.store fp with source := some src }).length := by
      rw [setP_length]; exact hlt
    have hfpPost : getP (layerFragmentProfile src st fp).store fp =
        { getP st.store fp with source := some src } := by
      rw [hso, insertParentAt]
      rw [getP_setP_ne _ _ _ _ (Ne.symm hne)]
      exact hfp1
    have huidPost : getP (layerFragmentProfile src st fp).store uid =
        { getP st.store uid with parents := fp :: (getP st.store uid).parents } := by
      rw [hso, insertParentAt, getP_setP_self _ _ _ hlt1, huid1]
      simp
    refine ⟨hfpPost, huidPost, ?_, hus, hw, ?_, ?_⟩
    · intro j hju hjf
      rw [hso, insertParentAt, getP_setP_ne _ _ _ _ hju, getP_setP_ne _ _ _ _ hjf]
    · intro f v hv hn
      rw [resolveHistorySize, huidPost]
      simp only [hn]
      rw [List.findSome?]
      rw [resolveHistorySize, hfpPost]
      simp [hv]
    · intro f w hw'
      rw [resolveHistorySize, huidPost]
      simp [hw']
  · intro hu hlk
    simp only [layerFragmentProfile, if_pos hu, hlk]
  · intro hu hfresh
    have hcond : ¬ ((getP st.store fp).updates ≠ 0) := by simp [hu]
    simp only [layerFragmentProfile, if_neg hcond, reproduceProfile, appendProfile]
    generalize hs1 : setP st.store fp { getP st.store fp with source := some src } = s1
    have hps1 : getP s1 fp = { getP st.store fp with source := some src } := by
      rw [← hs1]; exact getP_setP_self _ _ _ hfplt
    have hlen1 : s1.length = st.store.length := by rw [← hs1]; exact setP_length _ _ _
    have hfplt1 : fp < s1.length := by rw [hlen1]; exact hfplt
    rw [← hlen1, hps1, getP_append_len]
    have hlkf : (st.userSettings.profilesByGuid.lookup
        (({ getP st.store fp with source := some src } : Profile).guid)).isSome = false := by
      rw [Bool.eq_false_iff]
      intro hc
      exact hfresh ((lookup_isSome_iff_mem _ _).1 hc)
    rw [getP_append_lt _ _ _ hfplt1, hps1]
    simp only [Profile.guid, Option.getD_some] at hlkf ⊢
    rw [hlkf]
    simp [Profile.guid]

/-- A loader for the C2 witness: user profile 0 (no explicit history size)
already has the inbox parent 2 (history size 5); fragment profile 1 carries
`updates = 7` and history size 11. -/
def c2PatchLoader : SettingsLoader :=
  { store := [{ name := "user", guidExplicit := some 7, origin := .User, parents := [2] },
              { name := "frag", guidExplicit := some 9, updates := 7, origin := .Fragment,
                historySize := some 11 },
              { name := "inbox", guidExplicit := some 7, origin := .InBox,
                historySize := some 5 }]
    userSettings := { profiles := [0], profilesByGuid := [(7, 0)] } }

/-- Witness for claim C2 (amended): the fragment becomes the highest-priority
parent of user profile 0, and its history size 11 wins over the inbox parent's
5 because the user profile sets none itself. -/
theorem C2_mergeFragments_spec_witness :
    (getP (layerFragmentProfile "ns" c2PatchLoader 1).store 0).parents = [1, 2] ∧
    resolveHistorySize (layerFragmentProfile "ns" c2PatchLoader 1).store 3 0 = some 11 := by
  have hmain := (C2_mergeFragments_spec "ns" c2PatchLoader 1 (by decide)).1 0
    (by decide) (by decide) (by decide) (by decide)
  constructor
  · rw [hmain.2.1]
    decide
  · exact hmain.2.2.2.2.2.1 1 11 (by decide) (by decide)

/-! ### Claim C1 -/

theorem getG_set_ne (gs : GStore) (i j : Nat) (g : GlobalSettings) (h : j ≠ i) :
    getG (gs.set i g) j = getG gs j := by
  simp [getG, List.getD, List.getElem?_set, Ne.symm h]

theorem getG_set_self (gs : GStore) (i : Nat) (g : GlobalSettings) (h : i < gs.length) :
    getG (gs.set i g) i = g := by
  simp [getG, List.getD, List.getElem?_set, h]

/-- The profile loop of `FinalizeLayering` (`InsertParent(0, base)` then the
per-profile finalize) over a duplicate-free profile list: each listed profile
gets `base` prepended to its parent list, everything else is untouched. -/
theorem layerProfilesFold_spec (l : List Nat) (s : Store) (base : Nat)
    (hnd : l.Nodup) (hlt : ∀ pid ∈ l, pid < s.length) :
    (∀ pid ∈ l,
      getP (l.foldl (fun s2 pid =>
        profileFinalizeInheritance (insertParentAt s2 0 pid base) pid) s) pid =
        { getP s pid with parents := base :: (getP s pid).parents }) ∧
    (∀ j, j ∉ l →
      getP (l.foldl (fun s2 pid =>
        profileFinalizeInheritance (insertParentAt s2 0 pid base) pid) s) j = getP s j) ∧
    ((l.foldl (fun s2 pid =>
        profileFinalizeInheritance (insertParentAt s2 0 pid base) pid) s).length = s.length) := by
  induction l generalizing s with
  | nil => exact ⟨by simp, by simp, rfl⟩
  | cons pid tl ih =>
    have hpidtl : pid ∉ tl := (List.nodup_cons.1 hnd).1
    have hpidlt : pid < s.length := hlt pid (List.mem_cons_self pid tl)
    have hstep : profileFinalizeInheritance (insertParentAt s 0 pid base) pid =
        setP s pid { getP s pid with parents := base :: (getP s pid).parents } := by
      simp [profileFinalizeInheritance, insertParentAt]
    obtain ⟨ihA, ihB, ihL⟩ := ih
      (setP s pid { getP s pid with parents := base :: (getP s pid).parents })
      (List.nodup_cons.1 hnd).2
      (by intro q hq; rw [setP_length]; exact hlt q (List.mem_cons_of_mem _ hq))
    rw [List.foldl_cons, hstep]
    refine ⟨?_, ?_, ?_⟩
    · intro q hq
      rcases List.mem_cons.1 hq with h | h
      · subst h
        rw [ihB q hpidtl]
        exact getP_setP_self _ _ _ hpidlt
      · rw [ihA q h, getP_setP_ne _ _ _ _ (fun hc : q = pid => hpidtl (hc ▸ h))]
    · intro j hj
      rw [ihB j (fun h => hj (List.mem_cons_of_mem _ h))]
      exact getP_setP_ne _ _ _ _ (fun h => hj (h ▸ List.mem_cons_self pid tl))
    · rw [ihL, setP_length]

/-- Claim C1 (amended): `FinalizeLayering` performs exactly these steps in
order — it attaches the inbox globals as a parent of the user globals and
finalizes inheritance on the user globals (action map attached, keybinding
warnings appended, inbox color schemes inserted); attaches the inbox base-layer
profile as a (last) parent of the user base-layer profile and finalizes it; and
for every profile in the user profile list it inserts the user base-layer
profile as a parent at position 0 — which gives the base-layer defaults the
HIGHEST precedence among the profile-local parents, though still below the
profile's own explicit values — and finalizes that profile. -/
theorem C1_finalizeLayering_spec (st : SettingsLoader)
    (hub : st.userSettings.baseLayerProfile < st.store.length)
    (hubNot : st.userSettings.baseLayerProfile ∉ st.userSettings.profiles)
    (hnd : st.userSettings.profiles.Nodup)
    (hplt : ∀ pid ∈ st.userSettings.profiles, pid < st.store.length)
    (hug : st.userSettings.globals < st.gstore.length)
    (hugNe : st.inboxSettings.globals ≠ st.userSettings.globals)
    (hgpar : (getG st.gstore st.userSettings.globals).parents = []) :
    (getG (finalizeLayering st).gstore st.userSettings.globals =
      { getG st.gstore st.userSettings.globals with
          parents := [st.inboxSettings.globals]
          actionMapParents := (getG st.gstore st.userSettings.globals).actionMapParents ++
            [st.inboxSettings.globals]
          keybindingsWarnings := (getG st.gstore st.userSettings.globals).keybindingsWarnings ++
            (getG st.gstore st.inboxSettings.globals).keybindingsWarnings
          colorSchemes := (getG st.gstore st.inboxSettings.globals).colorSchemes.foldl
            (fun m kv => schemesInsert m kv.1 kv.2)
            (getG st.gstore st.userSettings.globals).colorSchemes }) ∧
    (∀ j, j ≠ st.userSettings.globals →
      getG (finalizeLayering st).gstore j = getG st.gstore j) ∧
    (getP (finalizeLayering st).store st.userSettings.baseLayerProfile =
      { getP st.store st.userSettings.baseLayerProfile with
          parents := (getP st.store st.userSettings.baseLayerProfile).parents ++
            [st.inboxSettings.baseLayerProfile] }) ∧
    (∀ pid ∈ st.userSettings.profiles,
      getP (finalizeLayering st).store pid =
        { getP st.store pid with
            parents := st.userSettings.baseLayerProfile :: (getP st.store pid).parents }) ∧
    (∀ j, j ∉ st.userSettings.profiles → j ≠ st.userSettings.baseLayerProfile →
      getP (finalizeLayering st).store j = getP st.store j) ∧
    ((finalizeLayering st).userSettings = st.userSettings ∧
      (finalizeLayering st).inboxSettings = st.inboxSettings ∧
      (finalizeLayering st).warnings = st.warnings) ∧
    (∀ f v pid, pid ∈ st.userSettings.profiles →
      (getP st.store st.userSettings.baseLayerProfile).historySize = some v →
      (getP st.store pid).historySize = none →
      resolveHistorySize (finalizeLayering st).store (f + 2) pid = some v) ∧
    (∀ f w pid, pid ∈ st.userSettings.profiles →
      (getP st.store pid).historySize = some w →
      resolveHistorySize (finalizeLayering st).store (f + 1) pid = some w) := by
  have hso : (finalizeLayering st).store =
      st.userSettings.profiles.foldl
        (fun s2 pid => profileFinalizeInheritance
          (insertParentAt s2 0 pid st.userSettings.baseLayerProfile) pid)
        (insertParent st.store st.userSettings.baseLayerProfile
          st.inboxSettings.baseLayerProfile) := rfl
  have hgo : (finalizeLayering st).gstore =
      gFinalizeInheritance
        (gInsertParent st.gstore st.userSettings.globals st.inboxSettings.globals)
        st.userSettings.globals := rfl
  have hblt : ∀ pid ∈ st.userSettings.profiles,
      pid < (insertParent st.store st.userSettings.baseLayerProfile
        st.inboxSettings.baseLayerProfile).length := by
    intro q hq
    rw [insertParent, setP_length]
    exact hplt q hq
  obtain ⟨fA, fB, fL⟩ := layerProfilesFold_spec st.userSettings.profiles
    (insertParent st.store st.userSettings.baseLayerProfile st.inboxSettings.baseLayerProfile)
    st.userSettings.baseLayerProfile hnd hblt
  have hbase1 : getP (insertParent st.store st.userSettings.baseLayerProfile
      st.inboxSettings.baseLayerProfile) st.userSettings.baseLayerProfile =
      { getP st.store st.userSettings.baseLayerProfile with
          parents := (getP st.store st.userSettings.baseLayerProfile).parents ++
            [st.inboxSettings.baseLayerProfile] } := by
    rw [insertParent]
    exact getP_setP_self _ _ _ hub
  have hother1 : ∀ j, j ≠ st.userSettings.baseLayerProfile →
      getP (insertParent st.store st.userSettings.baseLayerProfile
        st.inboxSettings.baseLayerProfile) j = getP st.store j := by
    intro j hj
    rw [insertParent]
    exact getP_setP_ne _ _ _ _ hj
  -- globals
  have hg1 : getG (gInsertParent st.gstore st.userSettings.globals st.inboxSettings.globals)
      st.userSettings.globals =
      { getG st.gstore st.userSettings.globals with parents := [st.inboxSettings.globals] } := by
    rw [gInsertParent, getG_set_self _ _ _ hug, hgpar]
    simp
  have hg2 : getG (gInsertParent st.gstore st.userSettings.globals st.inboxSettings.globals)
      st.inboxSettings.globals = getG st.gstore st.inboxSettings.globals := by
    rw [gInsertParent]
    exact getG_set_ne _ _ _ _ hugNe
  have hglen : (gInsertParent st.gstore st.userSettings.globals st.inboxSettings.globals).length =
      st.gstore.length := by
    rw [gInsertParent]
    exact List.length_set _ _ _
  refine ⟨?_, ?_, ?_, ?_, ?_, ⟨rfl, rfl, rfl⟩, ?_, ?_⟩
  · rw [hgo, gFinalizeInheritance, hg1]
    simp only [List.foldl_cons, List.foldl_nil, hg2]
    rw [getG_set_self _ _ _ (by rw [hglen]; exact hug)]
  · intro j hj
    rw [hgo, gFinalizeInheritance]
    rw [getG_set_ne _ _ _ _ hj, gInsertParent, getG_set_ne _ _ _ _ hj]
  · rw [hso, fB st.userSettings.baseLayerProfile hubNot, hbase1]
  · intro pid hp
    rw [hso, fA pid hp, hother1 pid (fun h => hubNot (h ▸ hp))]
  · intro j hjp hjb
    rw [hso, fB j hjp, hother1 j hjb]
  · intro f v pid hp hbv hpn
    have hpid : getP (finalizeLayering st).store pid =
        { getP st.store pid with
            parents := st.userSettings.baseLayerProfile :: (getP st.store pid).parents } := by
      rw [hso, fA pid hp, hother1 pid (fun h => hubNot (h ▸ hp))]
    have hbf : getP (finalizeLayering st).store st.userSettings.baseLayerProfile =
        { getP st.store st.userSettings.baseLayerProfile with
            parents := (getP st.store st.userSettings.baseLayerProfile).parents ++
              [st.inboxSettings.baseLayerProfile] } := by
      rw [hso, fB st.userSettings.baseLayerProfile hubNot, hbase1]
    rw [resolveHistorySize, hpid]
    simp only [hpn]
    rw [List.findSome?]
    rw [resolveHistorySize, hbf]
    simp [hbv]
  · intro f w pid hp hw
    have hpid : getP (finalizeLayering st).store pid =
        { getP st.store pid with
            parents := st.userSettings.baseLayerProfile :: (getP st.store pid).parents } := by
      rw [hso, fA pid hp, hother1 pid (fun h => hubNot (h ▸ hp))]
    rw [resolveHistorySize, hpid]
    simp [hw]

/-- A loader right before `FinalizeLayering`: user base-layer profile 0 with
history size 1, user profile 2 (no own history size) already parented to the
inbox/generated profile 1 with history size 2, inbox base-layer profile 3. -/
def c1Loader : SettingsLoader :=
  { store := [{ name := "userbase", origin := .ProfilesDefaults, historySize := some 1 },
              { name := "gen", guidExplicit := some 7, origin := .InBox, historySize := some 2 },
              { name := "prof", guidExplicit := some 7, origin := .User, parents := [1] },
              { name := "inboxbase", origin := .ProfilesDefaults }]
    gstore := [{}, {}]
    inboxSettings := { globals := 1, baseLayerProfile := 3 }
    userSettings := { globals := 0, baseLayerProfile := 0, profiles := [2], profilesByGuid := [(7, 2)] } }

/-- Counterexample to claim C1 as stated: after `FinalizeLayering` the user
base-layer profile sits at position 0 of profile 2's parent list, and since
field resolution walks parents in order with the first hit winning, the
base-layer value 1 wins over the inbox parent's value 2 — the base-layer
defaults take the HIGHEST precedence among the profile-local parents, not the
lowest as the claim's parenthetical asserts (which would make the resolution
yield 2). -/
theorem C1_counterexample :
    (getP (finalizeLayering c1Loader).store 2).parents = [0, 1] ∧
    (getP c1Loader.store 2).historySize = none ∧
    (getP c1Loader.store 0).historySize = some 1 ∧
    (getP c1Loader.store 1).historySize = some 2 ∧
    resolveHistorySize (finalizeLayering c1Loader).store 3 2 = some 1 ∧
    resolveHistorySize (finalizeLayering c1Loader).store 3 2 ≠ some 2 := by
  decide

/-- Witness for claim C1 (amended) at `c1Loader`: the inbox base becomes the
user base's parent, the user base is prepended to profile 2's parents, and the
base-layer value 1 is the resolved value of profile 2. -/
theorem C1_finalizeLayering_spec_witness :
    getP (finalizeLayering c1Loader).store 0 =
      { name := "userbase", origin := .ProfilesDefaults, historySize := some 1,
        parents := [3] } ∧
    getP (finalizeLayering c1Loader).store 2 =
      { name := "prof", guidExplicit := some 7, origin := .User, parents := [0, 1] } ∧
    resolveHistorySize (finalizeLayering c1Loader).store 3 2 = some 1 := by
  have h := C1_finalizeLayering_spec c1Loader (by decide) (by decide) (by decide)
    (by decide) (by decide) (by decide) (by decide)
  refine ⟨?_, ?_, ?_⟩
  · exact (h.2.2.1).trans (by decide)
  · exact (h.2.2.2.1 2 (by decide)).trans (by decide)
  · exact h.2.2.2.2.2.2.1 1 1 2 (by decide) (by decide) (by decide)

/-! ### Claim C9 -/

theorem findSome?_congr {α β : Type} (f g : α → Option β) (l : List α)
    (h : ∀ x ∈ l, f x = g x) : l.findSome? f = l.findSome? g := by
  induction l with
  | nil => rfl
  | cons x xs ih =>
    rw [List.findSome?_cons, List.findSome?_cons, h x (List.mem_cons_self x xs)]
    cases g x with
    | some v => rfl
    | none => exact ih (fun y hy => h y (List.mem_cons_of_mem _ hy))

/-- Scheme-name resolution is blind to changes confined to a set `P` of nodes
that are nobody's parent: if two stores agree outside `P`, parent lists of `P`
members never occur, and the queried node's record agrees, the resolutions
agree. -/
theorem resolveSchemeName_congrP (P : Nat → Prop) (s0 s : Store)
    (hagree : ∀ j, ¬ P j → getP s j = getP s0 j)
    (hnp : ∀ j q, P q → q ∉ (getP s0 j).parents) :
    ∀ fuel i, getP s i = getP s0 i →
      resolveSchemeName s fuel i = resolveSchemeName s0 fuel i := by
  intro fuel
  induction fuel with
  | zero => intro i _; rfl
  | succ f ih =>
    intro i hi
    simp only [resolveSchemeName, hi]
    cases (getP s0 i).defaultAppearance.colorSchemeName with
    | some v => rfl
    | none =>
      simp only
      refine findSome?_congr _ _ _ ?_
      intro q hq
      have hqP : ¬ P q := fun hP => hnp i q hP hq
      exact ih q (hagree q hqP)

/-- Basic properties of the default-appearance check: it only touches `pid`,
preserves the arena length and every parent list, its store result ignores the
incoming flag, and its flag result is the incoming flag OR-ed with the fresh
check. -/
theorem clearDefaultScheme_props (schemes : List (String × Nat)) (fuel : Nat)
    (s : Store) (b : Bool) (pid : Nat) (hlt : pid < s.length) :
    (∀ j, j ≠ pid → getP (clearDefaultScheme schemes fuel (s, b) pid).1 j = getP s j) ∧
    ((clearDefaultScheme schemes fuel (s, b) pid).1.length = s.length) ∧
    ((clearDefaultScheme schemes fuel (s, b) pid).1 =
      (clearDefaultScheme schemes fuel (s, false) pid).1) ∧
    ((clearDefaultScheme schemes fuel (s, b) pid).2 =
      (b || (clearDefaultScheme schemes fuel (s, false) pid).2)) ∧
    (∀ j, (getP (clearDefaultScheme schemes fuel (s, b) pid).1 j).parents =
      (getP s j).parents) := by
  by_cases hd : schemesHasKey schemes (schemeNameOfDefault s fuel pid)
  · have h1 : clearDefaultScheme schemes fuel (s, b) pid = (s, b) := by
      simp [clearDefaultScheme, hd]
    have h2 : clearDefaultScheme schemes fuel (s, false) pid = (s, false) := by
      simp [clearDefaultScheme, hd]
    rw [h1, h2]
    exact ⟨fun j _ => rfl, rfl, rfl, by simp, fun j => rfl⟩
  · have h1 : clearDefaultScheme schemes fuel (s, b) pid =
        (setP s pid { getP s pid with defaultAppearance :=
          { (getP s pid).defaultAppearance with colorSchemeName := none } }, true) := by
      simp [clearDefaultScheme, hd]
    have h2 : clearDefaultScheme schemes fuel (s, false) pid =
        (setP s pid { getP s pid with defaultAppearance :=
          { (getP s pid).defaultAppearance with colorSchemeName := none } }, true) := by
      simp [clearDefaultScheme, hd]
    rw [h1, h2]
    refine ⟨fun j hj => getP_setP_ne _ _ _ _ hj, setP_length _ _ _, rfl, by simp, ?_⟩
    intro j
    by_cases hjp : j = pid
    · subst hjp; rw [getP_setP_self _ _ _ hlt]
    · rw [getP_setP_ne _ _ _ _ hjp]

/-- The same basic properties for the unfocused-appearance check. -/
theorem clearUnfocusedScheme_props (schemes : List (String × Nat)) (fuel : Nat)
    (s : Store) (b : Bool) (pid : Nat) (hlt : pid < s.length) :
    (∀ j, j ≠ pid → getP (clearUnfocusedScheme schemes fuel (s, b) pid).1 j = getP s j) ∧
    ((clearUnfocusedScheme schemes fuel (s, b) pid).1.length = s.length) ∧
    ((clearUnfocusedScheme schemes fuel (s, b) pid).1 =
      (clearUnfocusedScheme schemes fuel (s, false) pid).1) ∧
    ((clearUnfocusedScheme schemes fuel (s, b) pid).2 =
      (b || (clearUnfocusedScheme schemes fuel (s, false) pid).2)) ∧
    (∀ j, (getP (clearUnfocusedScheme schemes fuel (s, b) pid).1 j).parents =
      (getP s j).parents) := by
  cases hua : (getP s pid).unfocusedAppearance with
  | none =>
    have h1 : clearUnfocusedScheme schemes fuel (s, b) pid = (s, b) := by
      simp [clearUnfocusedScheme, hua]
    have h2 : clearUnfocusedScheme schemes fuel (s, false) pid = (s, false) := by
      simp [clearUnfocusedScheme, hua]
    rw [h1, h2]
    exact ⟨fun j _ => rfl, rfl, rfl, by simp, fun j => rfl⟩
  | some ua =>
    by_cases hd : schemesHasKey schemes (schemeNameOfUnfocused s fuel pid ua)
    · have h1 : clearUnfocusedScheme schemes fuel (s, b) pid = (s, b) := by
        simp [clearUnfocusedScheme, hua, hd]
      have h2 : clearUnfocusedScheme schemes fuel (s, false) pid = (s, false) := by
        simp [clearUnfocusedScheme, hua, hd]
      rw [h1, h2]
      exact ⟨fun j _ => rfl, rfl, rfl, by simp, fun j => rfl⟩
    · have h1 : clearUnfocusedScheme schemes fuel (s, b) pid =
          (setP s pid { getP s pid with unfocusedAppearance := some ({ ua with colorSchemeName := none } : AppearanceConfig) }, true) := by
        simp [clearUnfocusedScheme, hua, hd]
      have h2 : clearUnfocusedScheme schemes fuel (s, false) pid =
          (setP s pid { getP s pid with unfocusedAppearance := some ({ ua with colorSchemeName := none } : AppearanceConfig) }, true) := by
        simp [clearUnfocusedScheme, hua, hd]
      rw [h1, h2]
      refine ⟨fun j hj => getP_setP_ne _ _ _ _ hj, setP_length _ _ _, rfl, by simp, ?_⟩
      intro j
      by_cases hjp : j = pid
      · subst hjp; rw [getP_setP_self _ _ _ hlt]
      · rw [getP_setP_ne _ _ _ _ hjp]

/-- The composed properties for `validateSchemesStep`. -/
theorem validateSchemesStep_props (schemes : List (String × Nat)) (fuel : Nat)
    (s : Store) (b : Bool) (pid : Nat) (hlt : pid < s.length) :
    (∀ j, j ≠ pid → getP (validateSchemesStep schemes fuel (s, b) pid).1 j = getP s j) ∧
    ((validateSchemesStep schemes fuel (s, b) pid).1.length = s.length) ∧
    ((validateSchemesStep schemes fuel (s, b) pid).1 =
      (validateSchemesStep schemes fuel (s, false) pid).1) ∧
    ((validateSchemesStep schemes fuel (s, b) pid).2 =
      (b || (validateSchemesStep schemes fuel (s, false) pid).2)) ∧
    (∀ j, (getP (validateSchemesStep schemes fuel (s, b) pid).1 j).parents =
      (getP s j).parents) := by
  obtain ⟨dA, dL, dS, dF, dP⟩ := clearDefaultScheme_props schemes fuel s b pid hlt
  obtain ⟨dA0, dL0, -, -, dP0⟩ := clearDefaultScheme_props schemes fuel s false pid hlt
  rcases hcd : clearDefaultScheme schemes fuel (s, b) pid with ⟨sd, bd⟩
  rcases hcd0 : clearDefaultScheme schemes fuel (s, false) pid with ⟨sd0, bd0⟩
  rw [hcd] at dA dL dS dF dP
  rw [hcd0] at dA0 dL0 dP0
  simp only at dA dL dS dF dP dA0 dL0 dP0
  have hsd : sd = sd0 := by rw [hcd0] at dS; simpa using dS
  have hlt1 : pid < sd.length := by rw [dL]; exact hlt
  obtain ⟨uA, uL, uS, uF, uP⟩ := clearUnfocusedScheme_props schemes fuel sd bd pid hlt1
  obtain ⟨uA0, uL0, -, uF0, uP0⟩ := clearUnfocusedScheme_props schemes fuel sd0 bd0 pid
    (by rw [← hsd]; exact hlt1)
  have hstep : validateSchemesStep schemes fuel (s, b) pid =
      clearUnfocusedScheme schemes fuel (sd, bd) pid := by
    rw [validateSchemesStep, hcd]
  have hstep0 : validateSchemesStep schemes fuel (s, false) pid =
      clearUnfocusedScheme schemes fuel (sd0, bd0) pid := by
    rw [validateSchemesStep, hcd0]
  refine ⟨?_, ?_, ?_, ?_, ?_⟩
  · intro j hj
    rw [hstep, uA j hj, dA j hj]
  · rw [hstep, uL, dL]
  · rw [hstep, hstep0, uS, ← hsd]
    exact ((clearUnfocusedScheme_props schemes fuel sd bd0 pid hlt1).2.2.1).symm
  · rw [hstep, hstep0, uF]
    have huF0' := (clearUnfocusedScheme_props schemes fuel sd0 bd0 pid
      (by rw [← hsd]; exact hlt1)).2.2.2.1
    rw [huF0']
    have hbdor : bd = (b || bd0) := by rw [hcd0] at dF; simpa using dF
    rw [hbdor, hsd]
    cases b <;> simp
  · intro j
    rw [hstep, uP j, dP j]

/-- The default-appearance check behaves the same over two stores that differ
only inside a set `P` of nodes that are nobody's parent, provided the checked
profile's record agrees; the relation is preserved for chaining. -/
theorem clearDefaultScheme_congrP (P : Nat → Prop) (schemes : List (String × Nat)) (fuel : Nat)
    (s0 s : Store) (pid : Nat)
    (hagree : ∀ j, ¬ P j → getP s j = getP s0 j)
    (hnp : ∀ j q, P q → q ∉ (getP s0 j).parents)
    (hpid : getP s pid = getP s0 pid) (hP : P pid)
    (hlen : s.length = s0.length) (hlt : pid < s0.length) :
    (∀ j, ¬ P j → getP (clearDefaultScheme schemes fuel (s, false) pid).1 j =
      getP (clearDefaultScheme schemes fuel (s0, false) pid).1 j) ∧
    (getP (clearDefaultScheme schemes fuel (s, false) pid).1 pid =
      getP (clearDefaultScheme schemes fuel (s0, false) pid).1 pid) ∧
    ((clearDefaultScheme schemes fuel (s, false) pid).2 =
      (clearDefaultScheme schemes fuel (s0, false) pid).2) ∧
    (∀ j q, P q → q ∉ (getP (clearDefaultScheme schemes fuel (s0, false) pid).1 j).parents) ∧
    ((clearDefaultScheme schemes fuel (s, false) pid).1.length =
      (clearDefaultScheme schemes fuel (s0, false) pid).1.length) ∧
    ((clearDefaultScheme schemes fuel (s0, false) pid).1.length = s0.length) := by
  have hlts : pid < s.length := by rw [hlen]; exact hlt
  have hres : schemeNameOfDefault s fuel pid = schemeNameOfDefault s0 fuel pid := by
    rw [schemeNameOfDefault, schemeNameOfDefault,
      resolveSchemeName_congrP P s0 s hagree hnp fuel pid hpid]
  by_cases hk : schemesHasKey schemes (schemeNameOfDefault s0 fuel pid)
  · have h1 : clearDefaultScheme schemes fuel (s, false) pid = (s, false) := by
      simp [clearDefaultScheme, hres, hk]
    have h2 : clearDefaultScheme schemes fuel (s0, false) pid = (s0, false) := by
      simp [clearDefaultScheme, hk]
    rw [h1, h2]
    exact ⟨hagree, hpid, rfl, hnp, hlen, rfl⟩
  · have h1 : clearDefaultScheme schemes fuel (s, false) pid =
        (setP s pid { getP s pid with defaultAppearance :=
          { (getP s pid).defaultAppearance with colorSchemeName := none } }, true) := by
      simp [clearDefaultScheme, hres, hk]
    have h2 : clearDefaultScheme schemes fuel (s0, false) pid =
        (setP s0 pid { getP s0 pid with defaultAppearance :=
          { (getP s0 pid).defaultAppearance with colorSchemeName := none } }, true) := by
      simp [clearDefaultScheme, hk]
    rw [h1, h2]
    refine ⟨?_, ?_, rfl, ?_, ?_, ?_⟩
    · intro j hj
      have hjp : j ≠ pid := fun h => hj (h ▸ hP)
      rw [getP_setP_ne _ _ _ _ hjp, getP_setP_ne _ _ _ _ hjp]
      exact hagree j hj
    · rw [getP_setP_self _ _ _ hlts, getP_setP_self _ _ _ hlt, hpid]
    · intro j q hq
      by_cases hjp : j = pid
      · rw [hjp, getP_setP_self _ _ _ hlt]
        exact hnp pid q hq
      · rw [getP_setP_ne _ _ _ _ hjp]
        exact hnp j q hq
    · rw [setP_length, setP_length, hlen]
    · rw [setP_length]

/-- Same congruence for the unfocused-appearance check. -/
theorem clearUnfocusedScheme_congrP (P : Nat → Prop) (schemes : List (String × Nat)) (fuel : Nat)
    (s0 s : Store) (pid : Nat)
    (hagree : ∀ j, ¬ P j → getP s j = getP s0 j)
    (hnp : ∀ j q, P q → q ∉ (getP s0 j).parents)
    (hpid : getP s pid = getP s0 pid) (_hP : P pid)
    (hlen : s.length = s0.length) (hlt : pid < s0.length) :
    (getP (clearUnfocusedScheme schemes fuel (s, false) pid).1 pid =
      getP (clearUnfocusedScheme schemes fuel (s0, false) pid).1 pid) ∧
    ((clearUnfocusedScheme schemes fuel (s, false) pid).2 =
      (clearUnfocusedScheme schemes fuel (s0, false) pid).2) := by
  have hlts : pid < s.length := by rw [hlen]; exact hlt
  have hresD : schemeNameOfDefault s fuel pid = schemeNameOfDefault s0 fuel pid := by
    rw [schemeNameOfDefault, schemeNameOfDefault,
      resolveSchemeName_congrP P s0 s hagree hnp fuel pid hpid]
  cases hua : (getP s0 pid).unfocusedAppearance with
  | none =>
    have h1 : clearUnfocusedScheme schemes fuel (s, false) pid = (s, false) := by
      simp [clearUnfocusedScheme, hpid, hua]
    have h2 : clearUnfocusedScheme schemes fuel (s0, false) pid = (s0, false) := by
      simp [clearUnfocusedScheme, hua]
    rw [h1, h2]
    exact ⟨hpid, rfl⟩
  | some ua =>
    have hresU : schemeNameOfUnfocused s fuel pid ua = schemeNameOfUnfocused s0 fuel pid ua := by
      rw [schemeNameOfUnfocused, schemeNameOfUnfocused, hresD]
    by_cases hk : schemesHasKey schemes (schemeNameOfUnfocused s0 fuel pid ua)
    · have h1 : clearUnfocusedScheme schemes fuel (s, false) pid = (s, false) := by
        simp [clearUnfocusedScheme, hpid, hua, hresU, hk]
      have h2 : clearUnfocusedScheme schemes fuel (s0, false) pid = (s0, false) := by
        simp [clearUnfocusedScheme, hua, hk]
      rw [h1, h2]
      exact ⟨hpid, rfl⟩
    · have h1 : clearUnfocusedScheme schemes fuel (s, false) pid =
          (setP s pid { getP s pid with unfocusedAppearance := some ({ ua with colorSchemeName := none } : AppearanceConfig) }, true) := by
        simp [clearUnfocusedScheme, hpid, hua, hresU, hk]
      have h2 : clearUnfocusedScheme schemes fuel (s0, false) pid =
          (setP s0 pid { getP s0 pid with unfocusedAppearance := some ({ ua with colorSchemeName := none } : AppearanceConfig) }, true) := by
        simp [clearUnfocusedScheme, hua, hk]
      rw [h1, h2]
      refine ⟨?_, rfl⟩
      rw [getP_setP_self _ _ _ hlts, getP_setP_self _ _ _ hlt, hpid]

/-- The composed congruence for `validateSchemesStep`: on `P`-related stores the
processed profile's resulting record and the dangling flag agree. -/
theorem validateSchemesStep_congrP (P : Nat → Prop) (schemes : List (String × Nat)) (fuel : Nat)
    (s0 s : Store) (pid : Nat)
    (hagree : ∀ j, ¬ P j → getP s j = getP s0 j)
    (hnp : ∀ j q, P q → q ∉ (getP s0 j).parents)
    (hpid : getP s pid = getP s0 pid) (hP : P pid)
    (hlen : s.length = s0.length) (hlt : pid < s0.length) :
    (getP (validateSchemesStep schemes fuel (s, false) pid).1 pid =
      getP (validateSchemesStep schemes fuel (s0, false) pid).1 pid) ∧
    ((validateSchemesStep schemes fuel (s, false) pid).2 =
      (validateSchemesStep schemes fuel (s0, false) pid).2) := by
  obtain ⟨cA, cR, cF, cN, cL, cL0⟩ :=
    clearDefaultScheme_congrP P schemes fuel s0 s pid hagree hnp hpid hP hlen hlt
  rcases hcd : clearDefaultScheme schemes fuel (s, false) pid with ⟨sd, bd⟩
  rcases hcd0 : clearDefaultScheme schemes fuel (s0, false) pid with ⟨sd0, bd0⟩
  rw [hcd] at cA cR cF cL
  rw [hcd0] at cA cR cF cN cL cL0
  simp only at cA cR cF cN cL cL0
  have hbd : bd = bd0 := cF
  have hlt0 : pid < sd0.length := by rw [cL0]; exact hlt
  have hlts1 : pid < sd.length := by rw [cL, cL0]; exact hlt
  obtain ⟨uR, uF⟩ := clearUnfocusedScheme_congrP P schemes fuel sd0 sd pid cA cN cR hP cL hlt0
  have hstep : validateSchemesStep schemes fuel (s, false) pid =
      clearUnfocusedScheme schemes fuel (sd, bd) pid := by
    rw [validateSchemesStep, hcd]
  have hstep0 : validateSchemesStep schemes fuel (s0, false) pid =
      clearUnfocusedScheme schemes fuel (sd0, bd0) pid := by
    rw [validateSchemesStep, hcd0]
  obtain ⟨pA, pL, pS, pF, pP⟩ := clearUnfocusedScheme_props schemes fuel sd bd pid hlts1
  obtain ⟨pA0, pL0, pS0, pF0, pP0⟩ := clearUnfocusedScheme_props schemes fuel sd0 bd0 pid hlt0
  constructor
  · rw [hstep, hstep0]
    calc getP (clearUnfocusedScheme schemes fuel (sd, bd) pid).1 pid
        = getP (clearUnfocusedScheme schemes fuel (sd, false) pid).1 pid := by rw [pS]
      _ = getP (clearUnfocusedScheme schemes fuel (sd0, false) pid).1 pid := uR
      _ = getP (clearUnfocusedScheme schemes fuel (sd0, bd0) pid).1 pid := by rw [pS0]
  · rw [hstep, hstep0, pF, pF0, hbd, uF]

/-- The validator fold over a duplicate-free profile list whose members are
nobody's parent: unlisted records are untouched, every listed profile ends up
exactly as if it were validated alone on the pristine store `s0`, and the final
flag reports whether any listed profile had a dangling reference. -/
theorem validateFold_spec (schemes : List (String × Nat)) (fuel : Nat)
    (P : Nat → Prop) (s0 : Store)
    (hnp : ∀ j q, P q → q ∉ (getP s0 j).parents) :
    ∀ (l : List Nat) (s : Store) (b : Bool),
      (∀ pid ∈ l, P pid) → l.Nodup →
      (∀ j, ¬ P j → getP s j = getP s0 j) →
      s.length = s0.length →
      (∀ pid ∈ l, getP s pid = getP s0 pid) →
      (∀ pid ∈ l, pid < s0.length) →
      (∀ j, j ∉ l →
        getP (l.foldl (validateSchemesStep schemes fuel) (s, b)).1 j = getP s j) ∧
      (∀ pid ∈ l,
        getP (l.foldl (validateSchemesStep schemes fuel) (s, b)).1 pid =
          getP (validateSchemesStep schemes fuel (s0, false) pid).1 pid) ∧
      ((l.foldl (validateSchemesStep schemes fuel) (s, b)).2 = true ↔
        b = true ∨ ∃ pid ∈ l, (validateSchemesStep schemes fuel (s0, false) pid).2 = true) := by
  intro l
  induction l with
  | nil =>
    intro s b _ _ _ _ _ _
    simp
  | cons pid tl ih =>
    intro s b hsub hnd hagree hlen hmod hlt
    have hP : P pid := hsub pid (List.mem_cons_self pid tl)
    have hpidtl : pid ∉ tl := (List.nodup_cons.1 hnd).1
    have hltpid0 : pid < s0.length := hlt pid (List.mem_cons_self _ _)
    have hltpid : pid < s.length := by rw [hlen]; exact hltpid0
    obtain ⟨sA, sL, sS, sF, sP⟩ := validateSchemesStep_props schemes fuel s b pid hltpid
    obtain ⟨cR, cF⟩ := validateSchemesStep_congrP P schemes fuel s0 s pid hagree hnp
      (hmod pid (List.mem_cons_self _ _)) hP hlen hltpid0
    rcases hst : validateSchemesStep schemes fuel (s, b) pid with ⟨s1, b1⟩
    rw [hst] at sA sL sS sF sP
    simp only at sA sL sS sF sP
    obtain ⟨ihA, ihB, ihC⟩ := ih s1 b1
      (fun q hq => hsub q (List.mem_cons_of_mem _ hq))
      (List.nodup_cons.1 hnd).2
      (by
        intro j hj
        have hjp : j ≠ pid := fun h => hj (h ▸ hP)
        rw [sA j hjp]
        exact hagree j hj)
      (by rw [sL, hlen])
      (by
        intro q hq
        have hqp : q ≠ pid := fun h => hpidtl (h ▸ hq)
        rw [sA q hqp]
        exact hmod q (List.mem_cons_of_mem _ hq))
      (fun q hq => hlt q (List.mem_cons_of_mem _ hq))
    rw [List.foldl_cons, hst]
    refine ⟨?_, ?_, ?_⟩
    · intro j hj
      rw [ihA j (fun h => hj (List.mem_cons_of_mem _ h))]
      exact sA j (fun h => hj (h ▸ List.mem_cons_self pid tl))
    · intro q hq
      rcases List.mem_cons.1 hq with h | h
      · subst h
        rw [ihA q hpidtl, sS]
        exact cR
      · exact ihB q h
    · have hb1 : b1 = true ↔
          (b = true ∨ (validateSchemesStep schemes fuel (s0, false) pid).2 = true) := by
        rw [sF, cF]
        cases b <;> simp
      rw [ihC, hb1]
      simp only [List.mem_cons, exists_eq_or_imp]
      tauto

/-- The unfocused-appearance check never touches the default appearance of the
processed profile, and passes a raised flag through. -/
theorem clearUnfocusedScheme_defaultApp (schemes : List (String × Nat)) (fuel : Nat)
    (s : Store) (b : Bool) (pid : Nat) (hlt : pid < s.length) :
    (getP (clearUnfocusedScheme schemes fuel (s, b) pid).1 pid).defaultAppearance =
      (getP s pid).defaultAppearance ∧
    (b = true → (clearUnfocusedScheme schemes fuel (s, b) pid).2 = true) := by
  cases hua : (getP s pid).unfocusedAppearance with
  | none =>
    have h1 : clearUnfocusedScheme schemes fuel (s, b) pid = (s, b) := by
      simp [clearUnfocusedScheme, hua]
    rw [h1]
    exact ⟨rfl, fun h => h⟩
  | some ua =>
    by_cases hd : schemesHasKey schemes (schemeNameOfUnfocused s fuel pid ua)
    · have h1 : clearUnfocusedScheme schemes fuel (s, b) pid = (s, b) := by
        simp [clearUnfocusedScheme, hua, hd]
      rw [h1]
      exact ⟨rfl, fun h => h⟩
    · have h1 : clearUnfocusedScheme schemes fuel (s, b) pid =
          (setP s pid { getP s pid with unfocusedAppearance := some ({ ua with colorSchemeName := none } : AppearanceConfig) }, true) := by
        simp [clearUnfocusedScheme, hua, hd]
      rw [h1]
      refine ⟨?_, fun _ => rfl⟩
      rw [getP_setP_self _ _ _ hlt]

/-- Validating a single profile on a pristine store: a dangling default
reference is cleared and raises the flag; when both references are fine the
store and flag are untouched; an explicitly-named dangling unfocused reference
is cleared. -/
theorem validateSchemesStep_single (schemes : List (String × Nat)) (fuel : Nat)
    (s : Store) (pid : Nat) (hlt : pid < s.length) :
    (¬ schemesHasKey schemes (schemeNameOfDefault s fuel pid) = true →
      (getP (validateSchemesStep schemes fuel (s, false) pid).1 pid).defaultAppearance.colorSchemeName = none ∧
      (validateSchemesStep schemes fuel (s, false) pid).2 = true) ∧
    (schemesHasKey schemes (schemeNameOfDefault s fuel pid) = true →
      ((getP s pid).unfocusedAppearance = none →
        validateSchemesStep schemes fuel (s, false) pid = (s, false)) ∧
      (∀ ua, (getP s pid).unfocusedAppearance = some ua →
        schemesHasKey schemes (schemeNameOfUnfocused s fuel pid ua) = true →
        validateSchemesStep schemes fuel (s, false) pid = (s, false))) ∧
    (∀ ua n, (getP s pid).unfocusedAppearance = some ua → ua.colorSchemeName = some n →
      ¬ schemesHasKey schemes n = true →
      (getP (validateSchemesStep schemes fuel (s, false) pid).1 pid).unfocusedAppearance =
        some ({ ua with colorSchemeName := none } : AppearanceConfig)) := by
  by_cases hd : schemesHasKey schemes (schemeNameOfDefault s fuel pid)
  · -- default reference fine
    have hcd : clearDefaultScheme schemes fuel (s, false) pid = (s, false) := by
      simp [clearDefaultScheme, hd]
    have hstep : validateSchemesStep schemes fuel (s, false) pid =
        clearUnfocusedScheme schemes fuel (s, false) pid := by
      rw [validateSchemesStep, hcd]
    refine ⟨fun h => absurd hd h, fun _ => ⟨?_, ?_⟩, ?_⟩
    · intro hua
      rw [hstep]
      simp [clearUnfocusedScheme, hua]
    · intro ua hua hk
      rw [hstep]
      simp [clearUnfocusedScheme, hua, hk]
    · intro ua n hua hn hk
      have hnm : schemeNameOfUnfocused s fuel pid ua = n := by
        rw [schemeNameOfUnfocused, hn]; rfl
      have hcu : clearUnfocusedScheme schemes fuel (s, false) pid =
          (setP s pid { getP s pid with unfocusedAppearance := some ({ ua with colorSchemeName := none } : AppearanceConfig) }, true) := by
        simp [clearUnfocusedScheme, hua, hnm, hk]
      rw [hstep, hcu]
      simp only
      rw [getP_setP_self _ _ _ hlt]
  · -- dangling default reference
    have hcd : clearDefaultScheme schemes fuel (s, false) pid =
        (setP s pid { getP s pid with defaultAppearance :=
          { (getP s pid).defaultAppearance with colorSchemeName := none } }, true) := by
      simp [clearDefaultScheme, hd]
    have hstep : validateSchemesStep schemes fuel (s, false) pid =
        clearUnfocusedScheme schemes fuel
          (setP s pid { getP s pid with defaultAppearance :=
            { (getP s pid).defaultAppearance with colorSchemeName := none } }, true) pid := by
      rw [validateSchemesStep, hcd]
    have hltm : pid < (setP s pid { getP s pid with defaultAppearance :=
        { (getP s pid).defaultAppearance with colorSchemeName := none } }).length := by
      rw [setP_length]; exact hlt
    have hmid : getP (setP s pid { getP s pid with defaultAppearance :=
        { (getP s pid).defaultAppearance with colorSchemeName := none } }) pid =
        { getP s pid with defaultAppearance :=
          { (getP s pid).defaultAppearance with colorSchemeName := none } } :=
      getP_setP_self _ _ _ hlt
    obtain ⟨hda, hfl⟩ := clearUnfocusedScheme_defaultApp schemes fuel
      (setP s pid { getP s pid with defaultAppearance :=
        { (getP s pid).defaultAppearance with colorSchemeName := none } }) true pid hltm
    refine ⟨fun _ => ⟨?_, ?_⟩, fun h => absurd h hd, ?_⟩
    · rw [hstep, hda, hmid]
    · rw [hstep]
      exact hfl rfl
    · intro ua n hua hn hk
      have huam : (getP (setP s pid { getP s pid with defaultAppearance :=
          { (getP s pid).defaultAppearance with colorSchemeName := none } }) pid).unfocusedAppearance =
          some ua := by
        rw [hmid]
        exact hua
      have hnm : ∀ s2 : Store, schemeNameOfUnfocused s2 fuel pid ua = n := by
        intro s2
        rw [schemeNameOfUnfocused, hn]; rfl
      have hcu : clearUnfocusedScheme schemes fuel
          (setP s pid { getP s pid with defaultAppearance :=
            { (getP s pid).defaultAppearance with colorSchemeName := none } }, true) pid =
          (setP (setP s pid { getP s pid with defaultAppearance :=
            { (getP s pid).defaultAppearance with colorSchemeName := none } }) pid
            { getP (setP s pid { getP s pid with defaultAppearance :=
              { (getP s pid).defaultAppearance with colorSchemeName := none } }) pid with
                unfocusedAppearance := some ({ ua with colorSchemeName := none } : AppearanceConfig) }, true) := by
        simp [clearUnfocusedScheme, huam, hnm, hk]
      rw [hstep, hcu]
      simp only
      rw [getP_setP_self _ _ _ (by rw [setP_length]; exact hlt)]

/-- Claim C9: after `_validateAllSchemesExist`, every profile whose default
appearance resolves to a color-scheme name missing from the global scheme map
has that name cleared (and likewise an explicitly-named dangling unfocused
appearance); a profile with no dangling reference is untouched; and the
`UnknownColorScheme` warning is appended exactly once when at least one profile
had a dangling reference and not at all otherwise — regardless of how many
profiles were affected.  The validator never throws: it is a total function. -/
theorem C9_validateSchemes_spec (fuel : Nat) (c : CascadiaS)
    (hnd : c.allProfiles.Nodup)
    (hlt : ∀ pid ∈ c.allProfiles, pid < c.store.length)
    (hnp : ∀ j q, q ∈ c.allProfiles → q ∉ (getP c.store j).parents) :
    (∀ j, j ∉ c.allProfiles →
      getP (validateAllSchemesExist fuel c).store j = getP c.store j) ∧
    (∀ pid ∈ c.allProfiles,
      getP (validateAllSchemesExist fuel c).store pid =
        getP (validateSchemesStep (getG c.gstore c.globals).colorSchemes fuel
          (c.store, false) pid).1 pid) ∧
    (∀ pid ∈ c.allProfiles,
      ¬ schemesHasKey (getG c.gstore c.globals).colorSchemes
          (schemeNameOfDefault c.store fuel pid) = true →
      (getP (validateAllSchemesExist fuel c).store pid).defaultAppearance.colorSchemeName =
        none) ∧
    (∀ pid ∈ c.allProfiles,
      schemesHasKey (getG c.gstore c.globals).colorSchemes
        (schemeNameOfDefault c.store fuel pid) = true →
      ((getP c.store pid).unfocusedAppearance = none →
        getP (validateAllSchemesExist fuel c).store pid = getP c.store pid) ∧
      (∀ ua, (getP c.store pid).unfocusedAppearance = some ua →
        schemesHasKey (getG c.gstore c.globals).colorSchemes
          (schemeNameOfUnfocused c.store fuel pid ua) = true →
        getP (validateAllSchemesExist fuel c).store pid = getP c.store pid)) ∧
    (∀ pid ∈ c.allProfiles, ∀ ua n,
      (getP c.store pid).unfocusedAppearance = some ua →
      ua.colorSchemeName = some n →
      ¬ schemesHasKey (getG c.gstore c.globals).colorSchemes n = true →
      (getP (validateAllSchemesExist fuel c).store pid).unfocusedAppearance =
        some ({ ua with colorSchemeName := none } : AppearanceConfig)) ∧
    ((validateAllSchemesExist fuel c).warnings =
      if ∃ pid ∈ c.allProfiles,
          (validateSchemesStep (getG c.gstore c.globals).colorSchemes fuel
            (c.store, false) pid).2 = true
      then c.warnings ++ [SettingsLoadWarnings.UnknownColorScheme]
      else c.warnings) ∧
    ((validateAllSchemesExist fuel c).warnings.count SettingsLoadWarnings.UnknownColorScheme =
      c.warnings.count SettingsLoadWarnings.UnknownColorScheme +
        (if ∃ pid ∈ c.allProfiles,
            (validateSchemesStep (getG c.gstore c.globals).colorSchemes fuel
              (c.store, false) pid).2 = true
          then 1 else 0)) ∧
    (∀ pid ∈ c.allProfiles,
      ¬ schemesHasKey (getG c.gstore c.globals).colorSchemes
          (schemeNameOfDefault c.store fuel pid) = true →
      (validateSchemesStep (getG c.gstore c.globals).colorSchemes fuel
        (c.store, false) pid).2 = true) := by
  obtain ⟨fA, fB, fC⟩ := validateFold_spec (getG c.gstore c.globals).colorSchemes fuel
    (fun q => q ∈ c.allProfiles) c.store
    (fun j q hq => hnp j q hq)
    c.allProfiles c.store false
    (fun pid hp => hp) hnd (fun j _ => rfl) rfl (fun pid _ => rfl) hlt
  rcases hq : c.allProfiles.foldl
      (validateSchemesStep (getG c.gstore c.globals).colorSchemes fuel)
      (c.store, false) with ⟨s', found⟩
  rw [hq] at fA fB fC
  simp only at fA fB fC
  have hvs : (validateAllSchemesExist fuel c).store = s' := by
    simp [validateAllSchemesExist, hq]
  have hvw : (validateAllSchemesExist fuel c).warnings =
      if found then c.warnings ++ [SettingsLoadWarnings.UnknownColorScheme] else c.warnings := by
    simp [validateAllSchemesExist, hq]
  have hfoundIff : found = true ↔ ∃ pid ∈ c.allProfiles,
      (validateSchemesStep (getG c.gstore c.globals).colorSchemes fuel
        (c.store, false) pid).2 = true := by
    rw [fC]
    simp
  have hwamount : (validateAllSchemesExist fuel c).warnings =
      if ∃ pid ∈ c.allProfiles,
          (validateSchemesStep (getG c.gstore c.globals).colorSchemes fuel
            (c.store, false) pid).2 = true
      then c.warnings ++ [SettingsLoadWarnings.UnknownColorScheme]
      else c.warnings := by
    rw [hvw]
    by_cases hex : ∃ pid ∈ c.allProfiles,
        (validateSchemesStep (getG c.gstore c.globals).colorSchemes fuel
          (c.store, false) pid).2 = true
    · rw [if_pos hex, if_pos (hfoundIff.2 hex)]
    · rw [if_neg hex, if_neg (fun h => hex (hfoundIff.1 h))]
  refine ⟨?_, ?_, ?_, ?_, ?_, hwamount, ?_, ?_⟩
  · intro j hj
    rw [hvs]
    exact fA j hj
  · intro pid hp
    rw [hvs]
    exact fB pid hp
  · intro pid hp hdang
    rw [hvs, fB pid hp]
    exact ((validateSchemesStep_single _ fuel c.store pid (hlt pid hp)).1 hdang).1
  · intro pid hp hok
    obtain ⟨hnone, hsome⟩ := (validateSchemesStep_single _ fuel c.store pid (hlt pid hp)).2.1 hok
    constructor
    · intro hua
      rw [hvs, fB pid hp, hnone hua]
    · intro ua hua hk
      rw [hvs, fB pid hp, hsome ua hua hk]
  · intro pid hp ua n hua hn hk
    rw [hvs, fB pid hp]
    exact (validateSchemesStep_single _ fuel c.store pid (hlt pid hp)).2.2 ua n hua hn hk
  · rw [hwamount]
    by_cases hex : ∃ pid ∈ c.allProfiles,
        (validateSchemesStep (getG c.gstore c.globals).colorSchemes fuel
          (c.store, false) pid).2 = true
    · rw [if_pos hex, if_pos hex]
      simp [List.count_append]
    · rw [if_neg hex, if_neg hex]
      simp
  · intro pid hp hdang
    exact ((validateSchemesStep_single _ fuel c.store pid (hlt pid hp)).1 hdang).2

/-- A container for the C9 witness: two profiles whose default appearances
name unknown schemes, the second also carrying an explicitly-named dangling
unfocused appearance; the global map only knows "Campbell". -/
def c9Container : CascadiaS :=
  { store := [{ name := "p0", defaultAppearance := { colorSchemeName := some "Nope" } },
              { name := "p1", defaultAppearance := { colorSchemeName := some "AlsoNope" },
                unfocusedAppearance := some { colorSchemeName := some "Gone" } }]
    gstore := [{ colorSchemes := [("Campbell", 5)] }]
    globals := 0
    allProfiles := [0, 1]
    activeProfiles := [0, 1] }

/-- Every record of the C9 witness store has an empty parent list. -/
theorem c9_parents_nil : ∀ j, (getP c9Container.store j).parents = [] := by
  intro j
  match j with
  | 0 => rfl
  | 1 => rfl
  | n + 2 => rfl

/-- Witness for claim C9: both dangling default references are cleared, the
explicitly dangling unfocused reference is cleared, and `UnknownColorScheme`
appears exactly once even though two profiles were affected. -/
theorem C9_validateSchemes_spec_witness :
    (getP (validateAllSchemesExist 1 c9Container).store 0).defaultAppearance.colorSchemeName =
      none ∧
    (getP (validateAllSchemesExist 1 c9Container).store 1).defaultAppearance.colorSchemeName =
      none ∧
    (getP (validateAllSchemesExist 1 c9Container).store 1).unfocusedAppearance =
      some ({ colorSchemeName := none } : AppearanceConfig) ∧
    (validateAllSchemesExist 1 c9Container).warnings = [SettingsLoadWarnings.UnknownColorScheme] := by
  have hnp : ∀ j q, q ∈ c9Container.allProfiles → q ∉ (getP c9Container.store j).parents := by
    intro j q hq
    rw [c9_parents_nil j]
    exact List.not_mem_nil q
  have h := C9_validateSchemes_spec 1 c9Container (by decide) (by decide) hnp
  refine ⟨?_, ?_, ?_, ?_⟩
  · exact h.2.2.1 0 (by decide) (by decide)
  · exact h.2.2.1 1 (by decide) (by decide)
  · have hu := h.2.2.2.2.1 1 (by decide) { colorSchemeName := some "Gone" } "Gone"
      (by decide) (by decide) (by decide)
    simpa using hu
  · rw [h.2.2.2.2.2.1, if_pos ⟨0, by decide, by decide⟩]
    decide

/-! ### Claim C10 -/

/-- Claim C10: `DuplicateProfile` never copies the source's `Hidden` flag — the
duplicate's flag comes from the base-layer profile through `_createNewProfile`
(the right-hand side below does not mention the source profile at all, so a
hidden source yields the same flag as a visible one) — while the modelled
settings are copied exactly when the source set them explicitly or inherited
them from a non-`profiles.defaults`-origin ancestor, and the duplicate is
appended to both `AllProfiles` and `ActiveProfiles`, so the duplicate of a
hidden profile is always listed among the active profiles. -/
theorem C10_duplicateProfile_spec (c : CascadiaS) (fuel freshGuid srcPid : Nat) :
    (duplicateProfile c fuel freshGuid srcPid).1 = c.store.length ∧
    (getP (duplicateProfile c fuel freshGuid srcPid).2.store c.store.length).hidden =
      (getP c.store c.baseLayerProfile).hidden ∧
    (duplicateProfile c fuel freshGuid srcPid).2.allProfiles =
      c.allProfiles ++ [c.store.length] ∧
    (duplicateProfile c fuel freshGuid srcPid).2.activeProfiles =
      c.activeProfiles ++ [c.store.length] ∧
    c.store.length ∈ (duplicateProfile c fuel freshGuid srcPid).2.activeProfiles ∧
    ((getP (duplicateProfile c fuel freshGuid srcPid).2.store c.store.length).historySize =
      if needsDupHistorySize c.store fuel srcPid then
        some ((resolveHistorySize c.store fuel srcPid).getD 9001)
      else none) ∧
    ((getP (duplicateProfile c fuel freshGuid srcPid).2.store c.store.length).guidExplicit =
      some freshGuid) ∧
    ((getP (duplicateProfile c fuel freshGuid srcPid).2.store c.store.length).parents =
      [c.baseLayerProfile]) := by
  by_cases h1 : needsDupHistorySize c.store fuel srcPid <;>
  by_cases h2 : needsDupSchemeName c.store fuel srcPid <;>
  by_cases h3 : needsDupUnfocused c.store fuel srcPid <;>
  by_cases h4 : (getP c.store srcPid).connectionType.isSome <;>
    simp [duplicateProfile, createNewProfileNamed, reproduceProfile, h1, h2, h3, h4,
      getP_append_len, getP_setP_self, setP_length]

/-! ### C7: the interned deep copy preserves sharing -/

theorem lookup_append_nat {β : Type} (v w : List (Nat × β)) (k : Nat) :
    (v ++ w).lookup k = if (v.lookup k).isSome then v.lookup k else w.lookup k := by
  induction v with
  | nil => simp [List.lookup]
  | cons x xs ih =>
    cases x with
    | mk a b =>
      by_cases h : k = a
      · simp [List.lookup, h]
      · have hb : (k == a) = false := by simp [h]
        simp only [List.lookup, hb]
        simp [ih]

theorem lookup_append_some {β : Type} {v : List (Nat × β)} (w : List (Nat × β))
    {k : Nat} {t0 : β} (h : v.lookup k = some t0) : (v ++ w).lookup k = some t0 := by
  rw [lookup_append_nat]
  simp [h]

theorem lookup_append_none_self {β : Type} {v : List (Nat × β)} {k : Nat}
    (h : v.lookup k = none) (t : β) : (v ++ [(k, t)]).lookup k = some t := by
  rw [lookup_append_nat]
  simp [h, List.lookup]

theorem lookup_single_isSome {β : Type} {i k : Nat} {t : β}
    (h : (([(i, t)] : List (Nat × β)).lookup k).isSome) : k = i := by
  by_cases hk : k = i
  · exact hk
  · have hb : (k == i) = false := by simp [hk]
    simp [List.lookup, hb] at h

theorem copyList_nil (src : Store) (f : Nat) (st : CopySt) :
    copyList src f [] st = ([], st) := by
  simp [copyList]

theorem copyList_cons (src : Store) (f : Nat) (q : Nat) (qs : List Nat) (st : CopySt) :
    copyList src f (q :: qs) st =
      ((copyInterned src f q st).1 :: (copyList src f qs (copyInterned src f q st).2).1,
        (copyList src f qs (copyInterned src f q st).2).2) := by
  simp [copyList]

theorem copyInterned_cached (src : Store) (fuel i : Nat) (st : CopySt) (t : Nat)
    (h : st.visited.lookup i = some t) : copyInterned src fuel i st = (t, st) := by
  simp [copyInterned, h]

theorem copyInterned_fresh_zero (src : Store) (i : Nat) (st : CopySt)
    (h : st.visited.lookup i = none) :
    copyInterned src 0 i st = (st.target.length, freshSt src i st) := by
  simp [copyInterned, freshSt, h]

theorem copyInterned_fresh_succ (src : Store) (f i : Nat) (st : CopySt)
    (h : st.visited.lookup i = none) :
    copyInterned src (f + 1) i st =
      (st.target.length,
        { target :=
            (copyList src f (getP src i).parents (freshSt src i st)).2.target.set
              st.target.length
              { getP (copyList src f (getP src i).parents (freshSt src i st)).2.target
                  st.target.length with
                parents := (copyList src f (getP src i).parents (freshSt src i st)).1 }
          visited := (copyList src f (getP src i).parents (freshSt src i st)).2.visited }) := by
  simp [copyInterned, freshSt, h]

theorem copyInv_refl (src : Store) (ks : List Nat) (st : CopySt) : CopyInv src ks st st :=
  ⟨fun _ _ h => h, Nat.le_refl _, fun _ _ => rfl, fun _ h => Or.inl h⟩

theorem copyInv_trans {src : Store} {ks : List Nat} {st st' st'' : CopySt}
    (h1 : CopyInv src ks st st') (h2 : CopyInv src ks st' st'') :
    CopyInv src ks st st'' := by
  obtain ⟨m1, l1, f1, d1⟩ := h1
  obtain ⟨m2, l2, f2, d2⟩ := h2
  refine ⟨fun k t0 h => m2 k t0 (m1 k t0 h), Nat.le_trans l1 l2, ?_, ?_⟩
  · intro n hn
    rw [f2 n (Nat.lt_of_lt_of_le hn l1), f1 n hn]
  · intro k h
    rcases d2 k h with h' | h' | h'
    · rcases d1 k h' with h'' | h'' | h''
      · exact Or.inl h''
      · exact Or.inr (Or.inl h'')
      · exact Or.inr (Or.inr h'')
    · exact Or.inr (Or.inl h')
    · exact Or.inr (Or.inr h')

theorem copyInv_mono_keys {src : Store} {ks ks' : List Nat} {st st' : CopySt}
    (h : CopyInv src ks st st') (hk : ∀ k, k ∈ ks → k ∈ ks') :
    CopyInv src ks' st st' := by
  obtain ⟨m1, l1, f1, d1⟩ := h
  refine ⟨m1, l1, f1, ?_⟩
  intro k hkk
  rcases d1 k hkk with h' | h' | h'
  · exact Or.inl h'
  · exact Or.inr (Or.inl (hk k h'))
  · exact Or.inr (Or.inr h')

theorem copyInv_freshSt (src : Store) (i : Nat) (st : CopySt)
    (_h : st.visited.lookup i = none) : CopyInv src [i] st (freshSt src i st) := by
  refine ⟨?_, ?_, ?_, ?_⟩
  · intro k t0 hk
    exact lookup_append_some _ hk
  · have h1 : (freshSt src i st).target.length = st.target.length + 1 := by
      simp [freshSt]
    omega
  · intro n hn
    exact getP_append_lt _ _ n hn
  · intro k hk
    simp only [freshSt] at hk
    rw [lookup_append_nat] at hk
    cases hv : st.visited.lookup k with
    | some u => exact Or.inl (by simp [hv])
    | none =>
      rw [hv] at hk
      simp at hk
      exact Or.inr (Or.inl (by simp [hk]))

theorem copyInv_list_of_interned (src : Store) (fuel : Nat)
    (hI : ∀ i st, CopyInv src [i] st (copyInterned src fuel i st).2) :
    ∀ (l : List Nat) (st : CopySt), CopyInv src l st (copyList src fuel l st).2 := by
  intro l
  induction l with
  | nil =>
    intro st
    rw [copyList_nil]
    exact copyInv_refl src [] st
  | cons q qs ih =>
    intro st
    rw [copyList_cons]
    exact copyInv_trans
      (copyInv_mono_keys (hI q st) (by intro k hk; simp at hk; simp [hk]))
      (copyInv_mono_keys (ih (copyInterned src fuel q st).2) (by intro k hk; simp [hk]))

theorem copyInv_step (src : Store) (fuel : Nat) :
    (∀ i st, CopyInv src [i] st (copyInterned src fuel i st).2) ∧
    (∀ (l : List Nat) (st : CopySt), CopyInv src l st (copyList src fuel l st).2) := by
  induction fuel with
  | zero =>
    have hI : ∀ i st, CopyInv src [i] st (copyInterned src 0 i st).2 := by
      intro i st
      cases hv : st.visited.lookup i with
      | some t =>
        rw [copyInterned_cached src 0 i st t hv]
        exact copyInv_refl src [i] st
      | none =>
        rw [copyInterned_fresh_zero src i st hv]
        exact copyInv_freshSt src i st hv
    exact ⟨hI, copyInv_list_of_interned src 0 hI⟩
  | succ f ihf =>
    have hI : ∀ i st, CopyInv src [i] st (copyInterned src (f + 1) i st).2 := by
      intro i st
      cases hv : st.visited.lookup i with
      | some t =>
        rw [copyInterned_cached src (f + 1) i st t hv]
        exact copyInv_refl src [i] st
      | none =>
        rw [copyInterned_fresh_succ src f i st hv]
        obtain ⟨m1, l1, f1, d1⟩ := copyInv_freshSt src i st hv
        obtain ⟨m2, l2, f2, d2⟩ := ihf.2 (getP src i).parents (freshSt src i st)
        refine ⟨?_, ?_, ?_, ?_⟩
        · intro k t0 hk
          exact m2 k t0 (m1 k t0 hk)
        · exact Nat.le_trans (Nat.le_trans l1 l2)
            (Nat.le_of_eq (List.length_set _ _ _).symm)
        · intro n hn
          have hlt : n < (freshSt src i st).target.length := by
            have h1 : (freshSt src i st).target.length = st.target.length + 1 := by
              simp [freshSt]
            omega
          exact (getP_setP_ne _ _ n _ (Nat.ne_of_lt hn)).trans ((f2 n hlt).trans (f1 n hn))
        · intro k hk
          rcases d2 k hk with h' | h' | h'
          · rcases d1 k h' with h'' | h'' | h''
            · exact Or.inl h''
            · exact Or.inr (Or.inl h'')
            · exact Or.inr (Or.inr h'')
          · exact Or.inr (Or.inr ⟨i, h'⟩)
          · exact Or.inr (Or.inr h')
    exact ⟨hI, copyInv_list_of_interned src (f + 1) hI⟩

theorem copyList_cached_pos (src : Store) (fuel b tb : Nat) :
    ∀ (l : List Nat) (st : CopySt), st.visited.lookup b = some tb →
      ∀ n : Nat, l[n]? = some b → ((copyList src fuel l st).1)[n]? = some tb := by
  intro l
  induction l with
  | nil =>
    intro st hst n hn
    simp at hn
  | cons q qs ih =>
    intro st hst n hn
    rw [copyList_cons]
    cases n with
    | zero =>
      rw [List.getElem?_cons_zero] at hn
      injection hn with hn
      subst hn
      rw [copyInterned_cached src fuel q st tb hst]
      simp
    | succ m =>
      rw [List.getElem?_cons_succ] at hn
      have hst' := ((copyInv_step src fuel).1 q st).1 b tb hst
      simpa using ih (copyInterned src fuel q st).2 hst' m hn

theorem copyInterned_self_lookup (src : Store) (fuel i : Nat) (st : CopySt) :
    ((copyInterned src fuel i st).2).visited.lookup i = some (copyInterned src fuel i st).1 := by
  cases hv : st.visited.lookup i with
  | some t =>
    rw [copyInterned_cached src fuel i st t hv]
    exact hv
  | none =>
    cases fuel with
    | zero =>
      rw [copyInterned_fresh_zero src i st hv]
      exact lookup_append_none_self hv _
    | succ f =>
      rw [copyInterned_fresh_succ src f i st hv]
      exact ((copyInv_step src f).2 (getP src i).parents (freshSt src i st)).1 i st.target.length
        (lookup_append_none_self hv _)

theorem copyList_walk (src : Store) (f b tb : Nat) :
    ∀ (l : List Nat) (st : CopySt) (k p ip : Nat),
      l[k]? = some p →
      st.visited.lookup p = none →
      st.visited.lookup b = some tb →
      p ∉ l.take k →
      (∀ j, p ∉ (getP src j).parents) →
      ((getP src p).parents)[ip]? = some b →
      ∃ tp, ((copyList src (f + 1) l st).2).visited.lookup p = some tp ∧
        ((copyList src (f + 1) l st).1)[k]? = some tp ∧
        ((getP ((copyList src (f + 1) l st).2).target tp).parents)[ip]? = some tb := by
  intro l
  induction l with
  | nil =>
    intro st k p ip hk
    simp at hk
  | cons x xs ih =>
    intro st k p ip hk hfresh hbase htake hnpar hip
    cases k with
    | zero =>
      rw [List.getElem?_cons_zero] at hk
      injection hk with hk
      subst p
      rw [copyList_cons, copyInterned_fresh_succ src f x st hfresh]
      refine ⟨st.target.length, ?_, ?_, ?_⟩
      · have h0 : (freshSt src x st).visited.lookup x = some st.target.length :=
          lookup_append_none_self hfresh _
        have h1 : ((copyList src f (getP src x).parents (freshSt src x st)).2).visited.lookup x
            = some st.target.length :=
          ((copyInv_step src f).2 (getP src x).parents (freshSt src x st)).1 x _ h0
        exact ((copyInv_step src (f + 1)).2 xs _).1 x _ h1
      · simp
      · have hb1 : (freshSt src x st).visited.lookup b = some tb := by
          simp only [freshSt]
          exact lookup_append_some _ hbase
        have hpos : ((copyList src f (getP src x).parents (freshSt src x st)).1)[ip]? = some tb :=
          copyList_cached_pos src f b tb (getP src x).parents (freshSt src x st) hb1 ip hip
        have hlen : st.target.length <
            ((copyList src f (getP src x).parents (freshSt src x st)).2).target.length := by
          have h2 := ((copyInv_step src f).2 (getP src x).parents (freshSt src x st)).2.1
          have h3 : (freshSt src x st).target.length = st.target.length + 1 := by
            simp [freshSt]
          omega
        have hget : getP (((copyList src f (getP src x).parents (freshSt src x st)).2).target.set
            st.target.length
            { getP ((copyList src f (getP src x).parents (freshSt src x st)).2).target
                st.target.length with
              parents := (copyList src f (getP src x).parents (freshSt src x st)).1 })
            st.target.length
            = { getP ((copyList src f (getP src x).parents (freshSt src x st)).2).target
                  st.target.length with
                parents := (copyList src f (getP src x).parents (freshSt src x st)).1 } :=
          getP_setP_self _ _ _ hlen
        have hframe := ((copyInv_step src (f + 1)).2 xs
          ({ target := ((copyList src f (getP src x).parents (freshSt src x st)).2).target.set
              st.target.length
              { getP ((copyList src f (getP src x).parents (freshSt src x st)).2).target
                  st.target.length with
                parents := (copyList src f (getP src x).parents (freshSt src x st)).1 }
             visited := ((copyList src f (getP src x).parents (freshSt src x st)).2).visited } :
            CopySt)).2.2.1 st.target.length
            (by simpa using hlen)
        have hEq := hframe.trans hget
        rw [hEq]
        simpa using hpos
    | succ m =>
      rw [List.getElem?_cons_succ] at hk
      rw [List.take_succ_cons] at htake
      have htx : p ≠ x := by
        intro hpx
        exact htake (by simp [hpx])
      have htk : p ∉ xs.take m := by
        intro hmem
        exact htake (by simp [hmem])
      have hmono := (copyInv_step src (f + 1)).1 x st
      have hfresh' : ((copyInterned src (f + 1) x st).2).visited.lookup p = none := by
        cases hv : ((copyInterned src (f + 1) x st).2).visited.lookup p with
        | none => rfl
        | some u =>
          rcases hmono.2.2.2 p (by simp [hv]) with h' | h' | h'
          · rw [hfresh] at h'
            simp at h'
          · simp at h'
            exact absurd h' htx
          · obtain ⟨j, hj⟩ := h'
            exact absurd hj (hnpar j)
      have hbase' := hmono.1 b tb hbase
      obtain ⟨tp, h1, h2, h3⟩ :=
        ih (copyInterned src (f + 1) x st).2 m p ip hk hfresh' hbase' htk hnpar hip
      rw [copyList_cons]
      exact ⟨tp, h1, by simpa using h2, h3⟩

theorem copy_fields (c : CascadiaS) (fuel : Nat) :
    (c.copy fuel).baseLayerProfile = (copyInterned c.store fuel c.baseLayerProfile {}).1 ∧
    (c.copy fuel).allProfiles =
      (copyList c.store fuel c.allProfiles
        (copyInterned c.store fuel c.baseLayerProfile {}).2).1 ∧
    (c.copy fuel).store =
      (copyList c.store fuel c.allProfiles
        (copyInterned c.store fuel c.baseLayerProfile {}).2).2.target :=
  ⟨rfl, rfl, rfl⟩

/-- **C7.** `CascadiaSettings::Copy` preserves sharing in the profile
inheritance graph: the whole copy runs through one interning "visited" map, so
a node reachable twice — in particular the base-layer profile shared as a
parent by the user profiles — is cloned exactly once: for any two profiles
`p`, `q` (at their first occurrences `kp`, `kq` in `_allProfiles`, neither
being the base-layer record itself nor any record's parent) whose parent slots
`ipar`, `iqar` reference the base-layer profile, the cloned profiles' same
parent slots both reference the one identical clone, namely the copy's own
base-layer record (identity equality is sameness of the target-arena index). -/
theorem C7_copy_preserves_sharing (c : CascadiaS) (f p kp ipar q kq iqar : Nat)
    (hp : c.allProfiles[kp]? = some p)
    (hq : c.allProfiles[kq]? = some q)
    (hpb : p ≠ c.baseLayerProfile)
    (hqb : q ≠ c.baseLayerProfile)
    (hptake : p ∉ c.allProfiles.take kp)
    (hqtake : q ∉ c.allProfiles.take kq)
    (hpnpar : ∀ j, p ∉ (getP c.store j).parents)
    (hqnpar : ∀ j, q ∉ (getP c.store j).parents)
    (hipar : ((getP c.store p).parents)[ipar]? = some c.baseLayerProfile)
    (hiqar : ((getP c.store q).parents)[iqar]? = some c.baseLayerProfile) :
    ∃ tp tq,
      ((c.copy (f + 1)).allProfiles)[kp]? = some tp ∧
      ((c.copy (f + 1)).allProfiles)[kq]? = some tq ∧
      ((getP (c.copy (f + 1)).store tp).parents)[ipar]? =
        some (c.copy (f + 1)).baseLayerProfile ∧
      ((getP (c.copy (f + 1)).store tq).parents)[iqar]? =
        some (c.copy (f + 1)).baseLayerProfile := by
  have hbase : ((copyInterned c.store (f + 1) c.baseLayerProfile {}).2).visited.lookup
      c.baseLayerProfile = some (copyInterned c.store (f + 1) c.baseLayerProfile {}).1 :=
    copyInterned_self_lookup c.store (f + 1) c.baseLayerProfile {}
  have hdom := ((copyInv_step c.store (f + 1)).1 c.baseLayerProfile ({} : CopySt)).2.2.2
  have hfreshP :
      ((copyInterned c.store (f + 1) c.baseLayerProfile {}).2).visited.lookup p = none := by
    cases hv : ((copyInterned c.store (f + 1) c.baseLayerProfile {}).2).visited.lookup p with
    | none => rfl
    | some u =>
      rcases hdom p (by simp [hv]) with h' | h' | h'
      · simp [List.lookup] at h'
      · simp at h'
        exact absurd h' hpb
      · obtain ⟨j, hj⟩ := h'
        exact absurd hj (hpnpar j)
  have hfreshQ :
      ((copyInterned c.store (f + 1) c.baseLayerProfile {}).2).visited.lookup q = none := by
    cases hv : ((copyInterned c.store (f + 1) c.baseLayerProfile {}).2).visited.lookup q with
    | none => rfl
    | some u =>
      rcases hdom q (by simp [hv]) with h' | h' | h'
      · simp [List.lookup] at h'
      · simp at h'
        exact absurd h' hqb
      · obtain ⟨j, hj⟩ := h'
        exact absurd hj (hqnpar j)
  obtain ⟨tp, hp1, hp2, hp3⟩ := copyList_walk c.store f c.baseLayerProfile
    (copyInterned c.store (f + 1) c.baseLayerProfile {}).1 c.allProfiles
    (copyInterned c.store (f + 1) c.baseLayerProfile {}).2 kp p ipar
    hp hfreshP hbase hptake hpnpar hipar
  obtain ⟨tq, hq1, hq2, hq3⟩ := copyList_walk c.store f c.baseLayerProfile
    (copyInterned c.store (f + 1) c.baseLayerProfile {}).1 c.allProfiles
    (copyInterned c.store (f + 1) c.baseLayerProfile {}).2 kq q iqar
    hq hfreshQ hbase hqtake hqnpar hiqar
  obtain ⟨hb, ha, hs⟩ := copy_fields c (f + 1)
  rw [ha, hs, hb]
  exact ⟨tp, tq, hp2, hq2, hp3, hq3⟩

/-- The three-profile container for the copy-sharing witness: one base-layer
record shared as the sole parent of two user profiles. -/
def c7Settings : CascadiaS :=
  { store := [{}, { name := "p1", parents := [0] }, { name := "p2", parents := [0] }]
    baseLayerProfile := 0
    allProfiles := [1, 2]
    activeProfiles := [1, 2] }

theorem C7_copy_preserves_sharing_witness :
    ∃ tp tq,
      ((c7Settings.copy 2).allProfiles)[0]? = some tp ∧
      ((c7Settings.copy 2).allProfiles)[1]? = some tq ∧
      ((getP (c7Settings.copy 2).store tp).parents)[0]? =
        some (c7Settings.copy 2).baseLayerProfile ∧
      ((getP (c7Settings.copy 2).store tq).parents)[0]? =
        some (c7Settings.copy 2).baseLayerProfile :=
  C7_copy_preserves_sharing c7Settings 1 1 0 0 2 1 0 (by decide) (by decide) (by decide)
    (by decide) (by decide) (by decide)
    (fun j => by
      match j with
      | 0 => decide
      | 1 => decide
      | 2 => decide
      | j + 3 => simp [c7Settings, getP, List.getD, List.getElem?_cons_succ, List.getElem?_nil])
    (fun j => by
      match j with
      | 0 => decide
      | 1 => decide
      | 2 => decide
      | j + 3 => simp [c7Settings, getP, List.getD, List.getElem?_cons_succ, List.getElem?_nil])
    (by decide) (by decide)

end TerminalSettings
